import Mathlib

set_option maxRecDepth 8192

/-!
Shallow embedding of `lockbox/records.py` (BAI lockbox record parsing).

Text is modelled as `List Char`; Python dictionaries (insertion-ordered,
unique keys) as association lists; exceptions as an `Except PyError`
result.  Every definition follows the corresponding Python code.
-/

/-- ASCII whitespace characters recognised by Python `str.strip()` and by
the regex class `\s` (for the ASCII inputs relevant here): space, tab,
LF, VT, FF, CR. -/
def isPySpace (c : Char) : Bool :=
  c == ' ' || c == Char.ofNat 9 || c == Char.ofNat 10 ||
  c == Char.ofNat 11 || c == Char.ofNat 12 || c == Char.ofNat 13

/-- Python `s.strip()`: remove leading and trailing whitespace. -/
def pyStrip (s : List Char) : List Char :=
  ((s.dropWhile isPySpace).reverse.dropWhile isPySpace).reverse

/-- Python `s[a:b]` for `0 ≤ a, b`: the characters at indices `a ≤ i < b`,
clamped to the length of the string (short strings give short slices). -/
def pySlice (s : List Char) (a b : Nat) : List Char := (s.take b).drop a

def isUpperAZ (c : Char) : Bool := 'A' ≤ c && c ≤ 'Z'

def isDigit09 (c : Char) : Bool := '0' ≤ c && c ≤ '9'

/-- The apostrophe character (ASCII 39). -/
def apos : Char := Char.ofNat 39

/-- Character class of the `Alphanumeric` regex in `_parse`:
`^[ A-Z0-9;:,'./()-]+$` (note that it contains the apostrophe). -/
def alnumClassChar (c : Char) : Bool :=
  c == ' ' || isUpperAZ c || isDigit09 c || c == ';' || c == ':' ||
  c == ',' || c == apos || c == '.' || c == '/' || c == '(' ||
  c == ')' || c == '-'

/-- Character class of the `AlphanumericOrBlank` regex in `_parse`:
`^$|^[ A-Z0-9;%#:',./_&()-]+$` (non-empty alternative). -/
def alnumOrBlankClassChar (c : Char) : Bool :=
  c == ' ' || isUpperAZ c || isDigit09 c || c == ';' || c == '%' ||
  c == '#' || c == ':' || c == apos || c == ',' || c == '.' ||
  c == '/' || c == '_' || c == '&' || c == '(' || c == ')' || c == '-'

/-- The character set that §4.1 of the specification declares for
`Alphanumeric` fields: `{space, A-Z, 0-9, ; : , . / ( ) -}` — written
from the spec's words (no apostrophe), for comparison with
`alnumClassChar`, which is written from the code's regex. -/
def specAlphanumericChar (c : Char) : Bool :=
  c == ' ' || isUpperAZ c || isDigit09 c || c == ';' || c == ':' ||
  c == ',' || c == '.' || c == '/' || c == '(' || c == ')' || c == '-'

/-- `LockboxFieldType`: the four field types of `records.py`. -/
inductive LockboxFieldType
  | Numeric
  | Alphanumeric
  | Blank
  | AlphanumericOrBlank
deriving DecidableEq, Repr

/-- The regex test performed by `_parse` on the *stripped* raw field:
`re.match` of the pattern selected by the field type. -/
def matchesFieldType (t : LockboxFieldType) (s : List Char) : Bool :=
  match t with
  | .Numeric => !s.isEmpty && s.all isDigit09
  | .Alphanumeric => !s.isEmpty && s.all alnumClassChar
  | .Blank => s.all isPySpace
  | .AlphanumericOrBlank =>
      s.isEmpty || (!s.isEmpty && s.all alnumOrBlankClassChar)

/-- Python `str.isnumeric()` restricted to the ASCII repertoire produced
by the record character classes: non-empty and all decimal digits. -/
def pyIsNumeric (s : List Char) : Bool := !s.isEmpty && s.all isDigit09

/-- Decimal value of a digit string. -/
def digitsVal (s : List Char) : Nat :=
  s.foldl (fun a c => a * 10 + (c.toNat - 48)) 0

def noDoubleUnderscore : List Char → Bool
  | [] => true
  | [_] => true
  | a :: b :: rest =>
      !(a == '_' && b == '_') && noDoubleUnderscore (b :: rest)

def headIsNotUnderscore (s : List Char) : Bool :=
  match s with
  | [] => true
  | a :: _ => !(a == '_')

/-- The digit part accepted by Python `int()` after sign handling:
non-empty, digits with single underscores strictly between digits. -/
def pyDigitsOk (s : List Char) : Bool :=
  !s.isEmpty && s.all (fun c => isDigit09 c || c == '_') &&
  headIsNotUnderscore s && headIsNotUnderscore s.reverse &&
  noDoubleUnderscore s

def stripUnderscores (s : List Char) : List Char :=
  s.filter (fun c => !(c == '_'))

def pyIntCore (s : List Char) : Option Int :=
  match s with
  | [] => none
  | c :: rest =>
      if c == '+' then
        if pyDigitsOk rest then some (Int.ofNat (digitsVal (stripUnderscores rest)))
        else none
      else if c == '-' then
        if pyDigitsOk rest then some (-(Int.ofNat (digitsVal (stripUnderscores rest))))
        else none
      else
        if pyDigitsOk (c :: rest) then
          some (Int.ofNat (digitsVal (stripUnderscores (c :: rest))))
        else none

/-- Python `int(s)` on a string: strip whitespace, optional sign, digits
(with underscore separators); `none` models the `ValueError`. -/
def pyInt (s : List Char) : Option Int := pyIntCore (pyStrip s)

deriving instance DecidableEq for Except

/-- The character list of a string literal. -/
def sL (s : String) : List Char := s.toList

/-! ## Python dictionaries as association lists -/

def hasKey {α : Type} : List (String × α) → String → Bool
  | [], _ => false
  | (k, _) :: rest, n => k == n || hasKey rest n

def lookupD {α : Type} : List (String × α) → String → Option α
  | [], _ => none
  | (k, v) :: rest, n => if k == n then some v else lookupD rest n

/-- Replace the value stored at key `k` (keeping its position). -/
def setKey {α : Type} : List (String × α) → String → α → List (String × α)
  | [], _, _ => []
  | (k, w) :: rest, n, v =>
      if k == n then (k, v) :: setKey rest n v else (k, w) :: setKey rest n v

/-- Python `d[k] = v`: overwrite in place if the key exists (keeping its
position), otherwise append at the end. -/
def dictInsert {α : Type} (d : List (String × α)) (k : String) (v : α) :
    List (String × α) :=
  if hasKey d k then setKey d k v else d ++ [(k, v)]

/-- The dictionary denoted by a Python `dict` literal: entries inserted
in order, a repeated key silently overwriting the earlier one. -/
def dictOfLiteral {α : Type} (l : List (String × α)) : List (String × α) :=
  l.foldl (fun d p => dictInsert d p.1 p.2) []

def keysUnique {α : Type} : List (String × α) → Bool
  | [] => true
  | (k, _) :: rest => !hasKey rest k && keysUnique rest

/-! ## Errors -/

/-- The exceptions record construction can raise.  `recordTooLong` and
`fieldTypeMismatch` are `LockboxParseError`s; `invalidDate` and
`invalidTime` are `LockboxDefinitionError`s; `attrAlreadyExists` and
`noSuchField` are Python `AttributeError`s; `intConversion` is the bare
`ValueError` escaping from a built-in `int(...)` call. -/
inductive PyError
  | recordTooLong (maxLen : Nat)
  | fieldTypeMismatch (fieldName : String) (expected : LockboxFieldType)
      (value : List Char)
  | attrAlreadyExists (fieldName : String)
  | noSuchField (fieldName : String)
  | invalidDate (value : List Char)
  | invalidTime (value : List Char)
  | intConversion (value : List Char)
deriving DecidableEq, Repr

inductive PyErrKind
  | parseError
  | definitionError
  | attributeError
  | valueError
deriving DecidableEq, Repr

/-- Which exception class each failure belongs to. -/
def errKind : PyError → PyErrKind
  | .recordTooLong _ => .parseError
  | .fieldTypeMismatch _ _ _ => .parseError
  | .attrAlreadyExists _ => .attributeError
  | .noSuchField _ => .attributeError
  | .invalidDate _ => .definitionError
  | .invalidTime _ => .definitionError
  | .intConversion _ => .valueError

/-! ## Field values -/

/-- The value a record attribute can hold after construction.
`amountv n` encodes the Python float `n / 100.0` produced for currency
fields (the raw value is integer cents). -/
inductive FieldValue
  | absent
  | strv (s : List Char)
  | intv (n : Int)
  | datev (y m d : Int)
  | timev (h mi : Int)
  | amountv (cents : Int)
deriving DecidableEq, Repr

structure FieldDef where
  startCol : Nat
  endCol : Nat
  ftype : LockboxFieldType
deriving DecidableEq, Repr

structure PyRecord where
  raw_record_text : List Char
  exposed : List (String × FieldValue)
deriving DecidableEq, Repr

def lookupField (r : PyRecord) (name : String) : Option FieldValue :=
  lookupD r.exposed name

def isOkE {α : Type} : Except PyError α → Bool
  | .ok _ => true
  | .error _ => false

/-! ## Dates and times (`datetime.date`, `datetime.time`) -/

def isLeapYear (y : Int) : Bool :=
  y % 4 == 0 && (!(y % 100 == 0) || y % 400 == 0)

def daysInMonth (y m : Int) : Int :=
  if m == 2 then (if isLeapYear y then 29 else 28)
  else if m == 4 || m == 6 || m == 9 || m == 11 then 30
  else 31

/-- `datetime.date(y, m, d)` succeeds exactly under these bounds. -/
def isValidDate (y m d : Int) : Bool :=
  decide (1 ≤ y) && decide (y ≤ 9999) && decide (1 ≤ m) &&
  decide (m ≤ 12) && decide (1 ≤ d) && decide (d ≤ daysInMonth y m)

/-- `datetime.time(h, mi)` succeeds exactly under these bounds. -/
def isValidTime (h mi : Int) : Bool :=
  decide (0 ≤ h) && decide (h ≤ 23) && decide (0 ≤ mi) && decide (mi ≤ 59)

/-- Core of `_parse_as_date` (after the attribute lookup): length check,
`int` of the two-character slices, `datetime.date` construction, with
every `ValueError` rewrapped as a `LockboxDefinitionError`. -/
def decodeDate (v : List Char) (mmddyy : Bool) :
    Except PyError (Int × Int × Int) :=
  if v.length ≠ 6 then .error (.invalidDate v)
  else
    match pyInt (pySlice v 0 2), pyInt (pySlice v 2 4), pyInt (pySlice v 4 6) with
    | some a, some b, some c =>
        if mmddyy then
          if isValidDate (c + 2000) a b then .ok (c + 2000, a, b)
          else .error (.invalidDate v)
        else
          if isValidDate (a + 2000) b c then .ok (a + 2000, b, c)
          else .error (.invalidDate v)
    | _, _, _ => .error (.invalidDate v)

/-- Core of `_parse_as_time`: length check, `int` of the slices,
`datetime.time` construction, `ValueError` rewrapped. -/
def decodeTime (v : List Char) : Except PyError (Int × Int) :=
  if v.length ≠ 4 then .error (.invalidTime v)
  else
    match pyInt (pySlice v 0 2), pyInt (pySlice v 2 4) with
    | some h, some mi =>
        if isValidTime h mi then .ok (h, mi) else .error (.invalidTime v)
    | _, _ => .error (.invalidTime v)

/-- `_parse_as_date(field_name, mmddyy)`: `AttributeError` when the raw
attribute is missing, then `decodeDate` on its value. -/
def parseAsDate (raws : List (String × List Char)) (name : String)
    (mmddyy : Bool) : Except PyError (Int × Int × Int) :=
  match lookupD raws name with
  | none => .error (.noSuchField name)
  | some v => decodeDate v mmddyy

/-- `_parse_as_time(field_name)`. -/
def parseAsTime (raws : List (String × List Char)) (name : String) :
    Except PyError (Int × Int) :=
  match lookupD raws name with
  | none => .error (.noSuchField name)
  | some v => decodeTime v

/-! ## Field parsing (`_parse`) -/

/-- Attribute names already present on a fresh record instance when
`_parse` starts (class attributes, methods, and `raw_record_text`),
as probed by `hasattr(self, field_name)`. -/
def baseAttrs : List String :=
  [("MAX_RECORD_LENGTH"), ("RECORD_TYPE_NUM"), ("raw_record_text"),
   ("children"), ("fields"), ("_parse"), ("_parse_as_date"),
   ("_parse_as_time")]

/-- The names of the `_{field}_raw` attributes set by `_parse` so far. -/
def rawAttrNames (raws : List (String × List Char)) : List String :=
  raws.map (fun p => ("_") ++ p.1 ++ ("_raw"))

/-- `_parse`: for each field in dictionary order, raise `AttributeError`
if the record already has an attribute of that name, slice the raw text,
and match the stripped slice against the field type's regex; on success
store the (unstripped) slice as `_{field}_raw`. -/
def parseFields (text : List Char) :
    List (String × FieldDef) → List String → List (String × List Char) →
    Except PyError (List (String × List Char))
  | [], _, raws => .ok raws
  | (name, fd) :: rest, attrs, raws =>
      if attrs.contains name then .error (.attrAlreadyExists name)
      else
        if matchesFieldType fd.ftype (pyStrip (pySlice text fd.startCol fd.endCol)) then
          parseFields text rest ((("_") ++ name ++ ("_raw")) :: attrs)
            (raws ++ [(name, pySlice text fd.startCol fd.endCol)])
        else .error (.fieldTypeMismatch name fd.ftype
          (pySlice text fd.startCol fd.endCol))

/-- The value assigned by the generic post-processing loop:
`None` for `Blank` fields, `getattr(self, '_{name}_raw', None)`
otherwise. -/
def finishVal (raws : List (String × List Char)) (fd : FieldDef)
    (name : String) : FieldValue :=
  match fd.ftype with
  | .Blank => FieldValue.absent
  | _ =>
      match lookupD raws name with
      | some r => FieldValue.strv r
      | none => FieldValue.absent

def finishFields (attrs : List String) (raws : List (String × List Char)) :
    List (String × FieldDef) → List (String × FieldValue) →
    List (String × FieldValue)
  | [], exposed => exposed
  | (name, fd) :: rest, exposed =>
      if attrs.contains name || hasKey exposed name then
        finishFields attrs raws rest exposed
      else
        finishFields attrs raws rest (exposed ++ [(name, finishVal raws fd name)])

/-! ## Record kinds and their schemas (as written in the source) -/

inductive RecordKind
  | immediateAddressHeader
  | serviceRecord
  | detailHeader
  | detailRecord
  | detailOverflowRecord
  | batchTotalRecord
  | serviceTotalRecord
  | destinationTrailerRecord
deriving DecidableEq, Repr

def immediateAddressHeaderFields : List (String × FieldDef) :=
  [(("priority_code"), ⟨1, 3, .Numeric⟩),
   (("destination_id"), ⟨3, 13, .Alphanumeric⟩),
   (("originating_trn"), ⟨13, 23, .Numeric⟩),
   (("processing_date"), ⟨23, 29, .Numeric⟩),
   (("processing_time"), ⟨29, 33, .Numeric⟩),
   (("filler"), ⟨33, 104, .AlphanumericOrBlank⟩)]

def serviceRecordFields : List (String × FieldDef) :=
  [(("destination"), ⟨1, 11, .AlphanumericOrBlank⟩),
   (("bank_origin"), ⟨11, 21, .AlphanumericOrBlank⟩),
   (("reference_code"), ⟨21, 31, .AlphanumericOrBlank⟩),
   (("service_code"), ⟨31, 34, .AlphanumericOrBlank⟩),
   (("record_length"), ⟨34, 37, .AlphanumericOrBlank⟩),
   (("characters_per_block"), ⟨37, 41, .AlphanumericOrBlank⟩),
   (("partial_compression"), ⟨41, 42, .AlphanumericOrBlank⟩),
   (("filler"), ⟨42, 81, .Blank⟩)]

/-- The `LockboxDetailHeader.fields` literal contains the key
`destination` twice (locations `(20, 30)` and `(30, 40)`). -/
def detailHeaderFields : List (String × FieldDef) :=
  [(("batch_number"), ⟨1, 4, .AlphanumericOrBlank⟩),
   (("item_number"), ⟨4, 7, .AlphanumericOrBlank⟩),
   (("lockbox_number"), ⟨7, 14, .AlphanumericOrBlank⟩),
   (("deposit_date"), ⟨14, 20, .AlphanumericOrBlank⟩),
   (("destination"), ⟨20, 30, .AlphanumericOrBlank⟩),
   (("destination"), ⟨30, 40, .AlphanumericOrBlank⟩),
   (("filler"), ⟨40, 104, .AlphanumericOrBlank⟩)]

def detailRecordFields : List (String × FieldDef) :=
  [(("batch_number"), ⟨1, 4, .AlphanumericOrBlank⟩),
   (("item_number"), ⟨4, 7, .AlphanumericOrBlank⟩),
   (("check_amount"), ⟨7, 17, .AlphanumericOrBlank⟩),
   (("transit_routing_number"), ⟨17, 26, .AlphanumericOrBlank⟩),
   (("dd_account_number"), ⟨26, 40, .AlphanumericOrBlank⟩),
   (("check_number"), ⟨40, 50, .AlphanumericOrBlank⟩),
   (("filler"), ⟨50, 77, .AlphanumericOrBlank⟩)]

def detailOverflowRecordFields : List (String × FieldDef) :=
  [(("batch_number"), ⟨1, 4, .AlphanumericOrBlank⟩),
   (("item_number"), ⟨4, 7, .AlphanumericOrBlank⟩),
   (("overflow_record_type"), ⟨7, 8, .AlphanumericOrBlank⟩),
   (("overflow_sequence_number"), ⟨8, 10, .AlphanumericOrBlank⟩),
   (("overflow_code"), ⟨10, 11, .AlphanumericOrBlank⟩),
   (("memo_line"), ⟨11, 80, .AlphanumericOrBlank⟩)]

def batchTotalRecordFields : List (String × FieldDef) :=
  [(("batch_number"), ⟨1, 4, .AlphanumericOrBlank⟩),
   (("item_number"), ⟨4, 7, .AlphanumericOrBlank⟩),
   (("lockbox_number"), ⟨7, 14, .AlphanumericOrBlank⟩),
   (("deposit_date"), ⟨14, 20, .AlphanumericOrBlank⟩),
   (("total_number_remittances"), ⟨20, 23, .AlphanumericOrBlank⟩),
   (("check_dollar_total"), ⟨23, 33, .Numeric⟩),
   (("filler"), ⟨33, 81, .AlphanumericOrBlank⟩)]

def serviceTotalRecordFields : List (String × FieldDef) :=
  [(("batch_number"), ⟨1, 4, .Numeric⟩),
   (("item_number"), ⟨4, 7, .Numeric⟩),
   (("lockbox_number"), ⟨7, 14, .AlphanumericOrBlank⟩),
   (("deposit_date"), ⟨14, 20, .Numeric⟩),
   (("total_num_checks"), ⟨20, 24, .Numeric⟩),
   (("check_dollar_total"), ⟨24, 34, .Numeric⟩),
   (("last_record_indicator"), ⟨34, 35, .AlphanumericOrBlank⟩),
   (("filler"), ⟨35, 104, .AlphanumericOrBlank⟩)]

def destinationTrailerRecordFields : List (String × FieldDef) :=
  [(("total_num_records"), ⟨1, 7, .Numeric⟩),
   (("filler"), ⟨7, 80, .Blank⟩)]

/-- The `fields` dict literal of each record class, as written. -/
def fieldsLiteralOf : RecordKind → List (String × FieldDef)
  | .immediateAddressHeader => immediateAddressHeaderFields
  | .serviceRecord => serviceRecordFields
  | .detailHeader => detailHeaderFields
  | .detailRecord => detailRecordFields
  | .detailOverflowRecord => detailOverflowRecordFields
  | .batchTotalRecord => batchTotalRecordFields
  | .serviceTotalRecord => serviceTotalRecordFields
  | .destinationTrailerRecord => destinationTrailerRecordFields

/-- Which record classes define a `validate` method. -/
def hasValidate : RecordKind → Bool
  | .serviceRecord => false
  | _ => true

/-- Attributes present before `_parse` runs (`validate` is a class
attribute only on the kinds that define it). -/
def attrsOf (k : RecordKind) : List String :=
  baseAttrs ++ (if hasValidate k then [("validate")] else [])

/-! ## Per-kind `validate` methods -/

/-- `getattr(self, '_{name}_raw')`: `AttributeError` if missing. -/
def getRaw (raws : List (String × List Char)) (name : String) :
    Except PyError (List Char) :=
  match lookupD raws name with
  | some v => .ok v
  | none => .error (.noSuchField name)

/-- `int(v)` with the `ValueError` propagating unwrapped. -/
def pyIntE (v : List Char) : Except PyError Int :=
  match pyInt v with
  | some n => .ok n
  | none => .error (.intConversion v)

/-- A validator returns the (possibly mutated) raw values together with
the attributes it set, in `setattr` order. -/
def immediateAddressHeaderValidate (raws : List (String × List Char)) :
    Except PyError (List (String × List Char) × List (String × FieldValue)) :=
  match parseAsDate raws ("processing_date") false with
  | .error e => .error e
  | .ok (y, m, d) =>
      match parseAsTime raws ("processing_time") with
      | .error e => .error e
      | .ok (h, mi) =>
          .ok (raws, [(("processing_date"), FieldValue.datev y m d),
                      (("processing_time"), FieldValue.timev h mi)])

/-- `int(getattr(self, '_{name}_raw'))`: the hard integer parse with no
fallback used by several validators. -/
def intStep (raws : List (String × List Char)) (name : String) :
    Except PyError Int :=
  match getRaw raws name with
  | .error e => .error e
  | .ok v => pyIntE v

def detailHeaderValidate (raws : List (String × List Char)) :
    Except PyError (List (String × List Char) × List (String × FieldValue)) :=
  match intStep raws ("batch_number") with
  | .error e => .error e
  | .ok n => .ok (raws, [(("batch_number"), FieldValue.intv n)])

/-- `if pyIsNumeric raw: ... = \'0\'`: the lenient fallback mutation of a
`_{name}_raw` attribute in `LockboxDetailRecord.validate`. -/
def numFallback (raws : List (String × List Char)) (name : String)
    (v : List Char) : List (String × List Char) :=
  if pyIsNumeric v then raws else setKey raws name (['0'])

/-- `LockboxDetailRecord.validate` step 7: `self.check_number =
int(self._check_number_raw)`. -/
def dRV7 (raws5 : List (String × List Char)) (bn an : Int) :
    Except PyError (List (String × List Char) × List (String × FieldValue)) :=
  match getRaw raws5 ("check_number") with
  | .error e => .error e
  | .ok c2 =>
      match pyIntE c2 with
      | .error e => .error e
      | .ok cn =>
          .ok (raws5,
            [(("batch_number"), FieldValue.intv bn),
             (("check_amount"), FieldValue.amountv an),
             (("check_number"), FieldValue.intv cn)])

/-- Step 6: `if not self._check_number_raw.isnumeric(): ... = '0'`. -/
def dRV6 (raws4 : List (String × List Char)) (bn an : Int) :
    Except PyError (List (String × List Char) × List (String × FieldValue)) :=
  match getRaw raws4 ("check_number") with
  | .error e => .error e
  | .ok c1 => dRV7 (numFallback raws4 ("check_number") c1) bn an

/-- Step 5: `if len(self._check_number_raw) == 0: ... = '0'`. -/
def dRV5 (raws3 : List (String × List Char)) (bn an : Int) :
    Except PyError (List (String × List Char) × List (String × FieldValue)) :=
  match getRaw raws3 ("check_number") with
  | .error e => .error e
  | .ok c0 =>
      dRV6 (if c0.isEmpty then setKey raws3 ("check_number") (['0'])
            else raws3) bn an

/-- Step 4: `self.check_amount = int(self._check_amount_raw) / 100.00`. -/
def dRV4 (raws3 : List (String × List Char)) (bn : Int) :
    Except PyError (List (String × List Char) × List (String × FieldValue)) :=
  match intStep raws3 ("check_amount") with
  | .error e => .error e
  | .ok an => dRV5 raws3 bn an

/-- Step 3: `if not self._check_amount_raw.isnumeric(): ... = '0'`. -/
def dRV3 (raws2 : List (String × List Char)) (bn : Int) :
    Except PyError (List (String × List Char) × List (String × FieldValue)) :=
  match getRaw raws2 ("check_amount") with
  | .error e => .error e
  | .ok a0 => dRV4 (numFallback raws2 ("check_amount") a0) bn

/-- Step 2: `if not self._item_number_raw.isnumeric(): ... = '0'` (the
following `self.item_number = int(...)` is commented out in the source). -/
def dRV2 (raws1 : List (String × List Char)) (bn : Int) :
    Except PyError (List (String × List Char) × List (String × FieldValue)) :=
  match getRaw raws1 ("item_number") with
  | .error e => .error e
  | .ok i0 => dRV3 (numFallback raws1 ("item_number") i0) bn

/-- Step 1: `self.batch_number = int(self._batch_number_raw)`. -/
def dRV1 (raws1 : List (String × List Char)) :
    Except PyError (List (String × List Char) × List (String × FieldValue)) :=
  match intStep raws1 ("batch_number") with
  | .error e => .error e
  | .ok bn => dRV2 raws1 bn

/-- `LockboxDetailRecord.validate`: lenient zero fallback for
`batch_number`, `item_number`, `check_amount`, `check_number`; the
`self.item_number = int(...)` line is commented out in the source, so
`item_number` gains no attribute here.  Decomposed into the steps
`dRV1`…`dRV7` in source order. -/
def detailRecordValidate (raws0 : List (String × List Char)) :
    Except PyError (List (String × List Char) × List (String × FieldValue)) :=
  match getRaw raws0 ("batch_number") with
  | .error e => .error e
  | .ok b0 => dRV1 (numFallback raws0 ("batch_number") b0)

def detailOverflowRecordValidate (raws : List (String × List Char)) :
    Except PyError (List (String × List Char) × List (String × FieldValue)) :=
  match intStep raws ("batch_number") with
  | .error e => .error e
  | .ok bn =>
    match intStep raws ("item_number") with
    | .error e => .error e
    | .ok inum =>
      match intStep raws ("overflow_record_type") with
      | .error e => .error e
      | .ok ovn =>
        match intStep raws ("overflow_sequence_number") with
        | .error e => .error e
        | .ok sn =>
          .ok (raws,
            [(("batch_number"), FieldValue.intv bn),
             (("item_number"), FieldValue.intv inum),
             (("overflow_record_type"), FieldValue.intv ovn),
             (("overflow_sequence_number"), FieldValue.intv sn)])

def batchTotalRecordValidate (raws : List (String × List Char)) :
    Except PyError (List (String × List Char) × List (String × FieldValue)) :=
  match intStep raws ("batch_number") with
  | .error e => .error e
  | .ok bn =>
    match intStep raws ("item_number") with
    | .error e => .error e
    | .ok inum =>
      match parseAsDate raws ("deposit_date") false with
      | .error e => .error e
      | .ok (y, m, d) =>
        match intStep raws ("total_number_remittances") with
        | .error e => .error e
        | .ok tn =>
          match intStep raws ("check_dollar_total") with
          | .error e => .error e
          | .ok cn =>
            .ok (raws,
              [(("batch_number"), FieldValue.intv bn),
               (("item_number"), FieldValue.intv inum),
               (("deposit_date"), FieldValue.datev y m d),
               (("total_number_remittances"), FieldValue.intv tn),
               (("check_dollar_total"), FieldValue.amountv cn)])

def serviceTotalRecordValidate (raws : List (String × List Char)) :
    Except PyError (List (String × List Char) × List (String × FieldValue)) :=
  match intStep raws ("batch_number") with
  | .error e => .error e
  | .ok bn =>
    match intStep raws ("item_number") with
    | .error e => .error e
    | .ok inum =>
      match parseAsDate raws ("deposit_date") false with
      | .error e => .error e
      | .ok (y, m, d) =>
        match intStep raws ("total_num_checks") with
        | .error e => .error e
        | .ok tn =>
          match intStep raws ("check_dollar_total") with
          | .error e => .error e
          | .ok cn =>
            .ok (raws,
              [(("batch_number"), FieldValue.intv bn),
               (("item_number"), FieldValue.intv inum),
               (("deposit_date"), FieldValue.datev y m d),
               (("total_num_checks"), FieldValue.intv tn),
               (("check_dollar_total"), FieldValue.amountv cn)])

def destinationTrailerRecordValidate (raws : List (String × List Char)) :
    Except PyError (List (String × List Char) × List (String × FieldValue)) :=
  match intStep raws ("total_num_records") with
  | .error e => .error e
  | .ok tn => .ok (raws, [(("total_num_records"), FieldValue.intv tn)])

/-- Dispatch of the optional `validate` hook (`LockboxServiceRecord` has
none, so it changes nothing). -/
def validateOf : RecordKind → List (String × List Char) →
    Except PyError (List (String × List Char) × List (String × FieldValue))
  | .immediateAddressHeader, raws => immediateAddressHeaderValidate raws
  | .serviceRecord, raws => .ok (raws, [])
  | .detailHeader, raws => detailHeaderValidate raws
  | .detailRecord, raws => detailRecordValidate raws
  | .detailOverflowRecord, raws => detailOverflowRecordValidate raws
  | .batchTotalRecord, raws => batchTotalRecordValidate raws
  | .serviceTotalRecord, raws => serviceTotalRecordValidate raws
  | .destinationTrailerRecord, raws => destinationTrailerRecordValidate raws

/-! ## `__init__`: the whole construction pipeline -/

/-- `LockboxBaseRecord.MAX_RECORD_LENGTH` (officially 104, relaxed). -/
def MAX_RECORD_LENGTH : Nat := 160

/-- The implicit `record_type` field that `__init__` adds to `fields`. -/
def recordTypeFd : FieldDef := ⟨0, 1, LockboxFieldType.Numeric⟩

/-- `LockboxBaseRecord.__init__` on a record class with a `fields` dict.
`stFields` is the *class-level* `fields` dictionary (which `__init__`
mutates by inserting `record_type`, so it is threaded as state and
returned). -/
def constructSt (k : RecordKind) (stFields : List (String × FieldDef))
    (text : List Char) :
    Except PyError PyRecord × List (String × FieldDef) :=
  if MAX_RECORD_LENGTH < text.length then
    (.error (.recordTooLong MAX_RECORD_LENGTH), stFields)
  else
    match parseFields text (dictInsert stFields ("record_type") recordTypeFd)
        (attrsOf k) [] with
    | .error e => (.error e, dictInsert stFields ("record_type") recordTypeFd)
    | .ok raws =>
        match validateOf k raws with
        | .error e =>
            (.error e, dictInsert stFields ("record_type") recordTypeFd)
        | .ok (raws2, exposed) =>
            (.ok ⟨text, finishFields (attrsOf k ++ rawAttrNames raws2) raws2
              (dictInsert stFields ("record_type") recordTypeFd) exposed⟩,
             dictInsert stFields ("record_type") recordTypeFd)

/-- The runtime `fields` dictionary of a record kind after `__init__`
has inserted `record_type` (duplicate literal keys already collapsed). -/
def runtimeFields (k : RecordKind) : List (String × FieldDef) :=
  dictInsert (dictOfLiteral (fieldsLiteralOf k)) ("record_type") recordTypeFd

/-- Constructing a record of kind `k` from one line of raw text (first
construction, starting from the class's literal `fields` dict). -/
def construct (k : RecordKind) (text : List Char) : Except PyError PyRecord :=
  (constructSt k (dictOfLiteral (fieldsLiteralOf k)) text).1

/-! ## Dictionary lemmas -/

theorem lookupD_append {α : Type} (a b : List (String × α)) (n : String) :
    lookupD (a ++ b) n =
      match lookupD a n with
      | some v => some v
      | none => lookupD b n := by
  induction a with
  | nil => simp [lookupD]
  | cons p rest ih =>
      obtain ⟨k, v⟩ := p
      by_cases h : (k == n) = true
      · simp [lookupD, h]
      · simp [lookupD, h, ih]

theorem hasKey_eq_isSome {α : Type} (d : List (String × α)) (n : String) :
    hasKey d n = (lookupD d n).isSome := by
  induction d with
  | nil => simp [hasKey, lookupD]
  | cons p rest ih =>
      obtain ⟨k, v⟩ := p
      by_cases h : (k == n) = true
      · simp [hasKey, lookupD, h]
      · simp [hasKey, lookupD, h, ih]

theorem lookupD_setKey_ne {α : Type} (d : List (String × α)) (k n : String)
    (v : α) (h : ¬n = k) : lookupD (setKey d k v) n = lookupD d n := by
  induction d with
  | nil => simp [setKey]
  | cons p rest ih =>
      obtain ⟨k1, w⟩ := p
      by_cases h1 : (k1 == k) = true
      · have hk1 : k1 = k := by simpa using h1
        have h2 : (k1 == n) = false := by
          simp [hk1]
          exact fun hc => h hc.symm
        simp [setKey, h1, lookupD, h2, ih]
      · by_cases h2 : (k1 == n) = true
        · simp [setKey, h1, lookupD, h2]
        · simp [setKey, h1, lookupD, h2, ih]

theorem lookupD_setKey_self {α : Type} (d : List (String × α)) (k : String)
    (v : α) (h : hasKey d k = true) :
    lookupD (setKey d k v) k = some v := by
  induction d with
  | nil => simp [hasKey] at h
  | cons p rest ih =>
      obtain ⟨k1, w⟩ := p
      by_cases h1 : (k1 == k) = true
      · simp [setKey, h1, lookupD]
      · simp [hasKey, h1] at h
        simp [setKey, h1, lookupD, ih h]

theorem lookupD_setKey_isSome {α : Type} (d : List (String × α)) (k n : String)
    (v : α) : (lookupD (setKey d k v) n).isSome = (lookupD d n).isSome := by
  induction d with
  | nil => simp [setKey]
  | cons p rest ih =>
      obtain ⟨k1, w⟩ := p
      by_cases h1 : (k1 == k) = true
      · by_cases h2 : (k1 == n) = true
        · simp [setKey, h1, lookupD, h2]
        · simp [setKey, h1, lookupD, h2, ih]
      · by_cases h2 : (k1 == n) = true
        · simp [setKey, h1, lookupD, h2]
        · simp [setKey, h1, lookupD, h2, ih]

theorem setKey_not_has {α : Type} (d : List (String × α)) (k : String) (v : α)
    (h : hasKey d k = false) : setKey d k v = d := by
  induction d with
  | nil => simp [setKey]
  | cons p rest ih =>
      obtain ⟨k1, w⟩ := p
      simp [hasKey] at h
      simp [setKey, h.1, ih h.2]

theorem setKey_append {α : Type} (a b : List (String × α)) (k : String)
    (v : α) : setKey (a ++ b) k v = setKey a k v ++ setKey b k v := by
  induction a with
  | nil => simp [setKey]
  | cons p rest ih =>
      obtain ⟨k1, w⟩ := p
      by_cases h1 : (k1 == k) = true
      · simp [setKey, h1, ih]
      · simp [setKey, h1, ih]

theorem setKey_setKey {α : Type} (d : List (String × α)) (k : String)
    (v : α) : setKey (setKey d k v) k v = setKey d k v := by
  induction d with
  | nil => simp [setKey]
  | cons p rest ih =>
      obtain ⟨k1, w⟩ := p
      by_cases h1 : (k1 == k) = true
      · simp [setKey, h1, ih]
      · simp [setKey, h1, ih]

theorem hasKey_setKey {α : Type} (d : List (String × α)) (k n : String)
    (v : α) : hasKey (setKey d k v) n = hasKey d n := by
  induction d with
  | nil => simp [setKey]
  | cons p rest ih =>
      obtain ⟨k1, w⟩ := p
      by_cases h1 : (k1 == k) = true
      · simp [setKey, h1, hasKey, ih]
      · simp [setKey, h1, hasKey, ih]

theorem hasKey_append {α : Type} (a b : List (String × α)) (n : String) :
    hasKey (a ++ b) n = (hasKey a n || hasKey b n) := by
  induction a with
  | nil => simp [hasKey]
  | cons p rest ih =>
      obtain ⟨k, v⟩ := p
      simp [hasKey, ih, Bool.or_assoc]

/-- Re-assigning the same key/value in a Python dict is idempotent (the
second `self.fields[...] = ...` of a re-parse changes nothing). -/
theorem dictInsert_idem {α : Type} (d : List (String × α)) (k : String)
    (v : α) : dictInsert (dictInsert d k v) k v = dictInsert d k v := by
  by_cases h : hasKey d k = true
  · simp [dictInsert, h, hasKey_setKey, setKey_setKey]
  · have h2 : hasKey (d ++ [(k, v)]) k = true := by
      simp [hasKey_append, hasKey]
    have h3 : hasKey d k = false := by simpa using h
    simp [dictInsert, h3, h2, setKey_append, setKey_not_has d k v h3, setKey]

theorem keysUnique_setKey {α : Type} (d : List (String × α)) (k : String)
    (v : α) : keysUnique (setKey d k v) = keysUnique d := by
  induction d with
  | nil => simp [setKey]
  | cons p rest ih =>
      obtain ⟨k1, w⟩ := p
      by_cases h1 : (k1 == k) = true
      · simp [setKey, h1, keysUnique, hasKey_setKey, ih]
      · simp [setKey, h1, keysUnique, hasKey_setKey, ih]

theorem keysUnique_append_single {α : Type} (d : List (String × α))
    (k : String) (v : α) (hu : keysUnique d = true)
    (hk : hasKey d k = false) : keysUnique (d ++ [(k, v)]) = true := by
  induction d with
  | nil => simp [keysUnique, hasKey]
  | cons p rest ih =>
      obtain ⟨k1, w⟩ := p
      simp [keysUnique] at hu
      simp [hasKey] at hk
      have hne : (k == k1) = false := by
        simp only [beq_eq_false_iff_ne]
        exact fun he => hk.1 he.symm
      simp [keysUnique, hasKey_append, hu.1, hasKey, hne, ih hu.2 hk.2]

theorem keysUnique_dictInsert {α : Type} (d : List (String × α)) (k : String)
    (v : α) (hu : keysUnique d = true) :
    keysUnique (dictInsert d k v) = true := by
  by_cases h : hasKey d k = true
  · simp [dictInsert, h, keysUnique_setKey, hu]
  · have h3 : hasKey d k = false := by simpa using h
    simp [dictInsert, h3, keysUnique_append_single d k v hu h3]

theorem keysUnique_foldl_dictInsert {α : Type} (l : List (String × α)) :
    ∀ d : List (String × α), keysUnique d = true →
      keysUnique (l.foldl (fun d p => dictInsert d p.1 p.2) d) = true := by
  induction l with
  | nil => intro d hd; simpa using hd
  | cons p rest ih =>
      intro d hd
      exact ih (dictInsert d p.1 p.2) (keysUnique_dictInsert d p.1 p.2 hd)

/-- A Python dict literal always has unique keys: a repeated key in the
literal is collapsed, the later entry overwriting the earlier one. -/
theorem keysUnique_dictOfLiteral {α : Type} (l : List (String × α)) :
    keysUnique (dictOfLiteral l) = true :=
  keysUnique_foldl_dictInsert l [] (by simp [keysUnique])

/-! ## Parsing lemmas -/

/-- When `_parse` succeeds, each field's recorded raw value is exactly
the *unstripped* slice `raw_text[start:end]`. -/
theorem parseFields_ok_raws (text : List Char) :
    ∀ (fields : List (String × FieldDef)) (attrs : List String)
      (acc raws : List (String × List Char)),
      parseFields text fields attrs acc = .ok raws →
      raws = acc ++ fields.map
        (fun p => (p.1, pySlice text p.2.startCol p.2.endCol)) := by
  intro fields
  induction fields with
  | nil =>
      intro attrs acc raws h
      simp [parseFields] at h
      simp [h.symm]
  | cons p rest ih =>
      obtain ⟨name, fd⟩ := p
      intro attrs acc raws h
      simp only [parseFields] at h
      by_cases h1 : attrs.contains name = true
      · rw [if_pos h1] at h
        exact absurd h (by simp)
      · rw [if_neg h1] at h
        by_cases h2 : matchesFieldType fd.ftype
            (pyStrip (pySlice text fd.startCol fd.endCol)) = true
        · simp only [h2, if_true] at h
          have := ih _ _ _ h
          simp [this]
        · simp only [Bool.not_eq_true] at h2
          simp [h2] at h

/-- When `_parse` succeeds, every field's stripped slice matched its
field type's pattern. -/
theorem parseFields_ok_matches (text : List Char) :
    ∀ (fields : List (String × FieldDef)) (attrs : List String)
      (acc raws : List (String × List Char)),
      parseFields text fields attrs acc = .ok raws →
      ∀ p ∈ fields, matchesFieldType p.2.ftype
        (pyStrip (pySlice text p.2.startCol p.2.endCol)) = true := by
  intro fields
  induction fields with
  | nil => intro attrs acc raws h p hp; simp at hp
  | cons q rest ih =>
      obtain ⟨name, fd⟩ := q
      intro attrs acc raws h p hp
      simp only [parseFields] at h
      by_cases h1 : attrs.contains name = true
      · rw [if_pos h1] at h
        exact absurd h (by simp)
      · rw [if_neg h1] at h
        by_cases h2 : matchesFieldType fd.ftype
            (pyStrip (pySlice text fd.startCol fd.endCol)) = true
        · simp only [h2, if_true] at h
          rcases List.mem_cons.mp hp with he | hm
          · subst he; exact h2
          · exact ih _ _ _ h p hm
        · simp only [Bool.not_eq_true] at h2
          simp [h2] at h

/-- When `_parse` succeeds, no field name was an already-present
attribute. -/
theorem parseFields_ok_attrs (text : List Char) :
    ∀ (fields : List (String × FieldDef)) (attrs : List String)
      (acc raws : List (String × List Char)),
      parseFields text fields attrs acc = .ok raws →
      ∀ p ∈ fields, p.1 ∉ attrs := by
  intro fields
  induction fields with
  | nil => intro attrs acc raws h p hp; simp at hp
  | cons q rest ih =>
      obtain ⟨name, fd⟩ := q
      intro attrs acc raws h p hp
      simp only [parseFields] at h
      by_cases h1 : attrs.contains name = true
      · rw [if_pos h1] at h
        exact absurd h (by simp)
      · rw [if_neg h1] at h
        by_cases h2 : matchesFieldType fd.ftype
            (pyStrip (pySlice text fd.startCol fd.endCol)) = true
        · simp only [h2, if_true] at h
          rcases List.mem_cons.mp hp with he | hm
          · subst he
            exact fun hc => h1 (List.elem_iff.mpr hc)
          · have h3 := ih _ _ _ h p hm
            exact fun hc => h3 (List.mem_cons_of_mem _ hc)
        · simp only [Bool.not_eq_true] at h2
          simp [h2] at h

/-- `_parse` never raises the record-too-long error. -/
theorem parseFields_error_not_tooLong (text : List Char) :
    ∀ (fields : List (String × FieldDef)) (attrs : List String)
      (acc : List (String × List Char)) (e : PyError),
      parseFields text fields attrs acc = .error e →
      ∀ n, e ≠ PyError.recordTooLong n := by
  intro fields
  induction fields with
  | nil => intro attrs acc e h; simp [parseFields] at h
  | cons q rest ih =>
      obtain ⟨name, fd⟩ := q
      intro attrs acc e h n
      simp only [parseFields] at h
      by_cases h1 : attrs.contains name = true
      · rw [if_pos h1] at h
        injection h with h2
        simp [h2.symm]
      · rw [if_neg h1] at h
        by_cases h2 : matchesFieldType fd.ftype
            (pyStrip (pySlice text fd.startCol fd.endCol)) = true
        · simp only [h2, if_true] at h
          exact ih _ _ _ h n
        · simp only [Bool.not_eq_true] at h2
          simp only [h2, Bool.false_eq_true, if_false] at h
          injection h with h3
          simp [h3.symm]

theorem lookupD_mem {α : Type} :
    ∀ (d : List (String × α)) (n : String) (v : α),
      lookupD d n = some v → (n, v) ∈ d := by
  intro d
  induction d with
  | nil => intro n v h; simp [lookupD] at h
  | cons p rest ih =>
      obtain ⟨k, w⟩ := p
      intro n v h
      by_cases h1 : (k == n) = true
      · simp only [lookupD, h1, if_true, Option.some.injEq] at h
        have : k = n := by simpa using h1
        simp [this.symm, h.symm]
      · simp only [lookupD, h1, Bool.false_eq_true, if_false] at h
        exact List.mem_cons_of_mem _ (ih n v h)

theorem lookupD_of_mem_unique {α : Type} :
    ∀ (d : List (String × α)) (n : String) (v : α),
      (n, v) ∈ d → keysUnique d = true → lookupD d n = some v := by
  intro d
  induction d with
  | nil => intro n v h; simp at h
  | cons p rest ih =>
      obtain ⟨k, w⟩ := p
      intro n v h hu
      simp only [keysUnique, Bool.and_eq_true, Bool.not_eq_true'] at hu
      rcases List.mem_cons.mp h with he | hm
      · injection he with he1 he2
        simp [lookupD, he1, he2]
      · have hk : (k == n) = false := by
          simp only [beq_eq_false_iff_ne]
          intro hkn
          subst hkn
          have : hasKey rest k = true := by
            rw [hasKey_eq_isSome]
            rw [ih k v hm hu.2]
            rfl
          simp [this] at hu
        simp [lookupD, hk, ih n v hm hu.2]

/-- Looking up a key in a key-preserving re-mapping of a unique-key
dictionary. -/
theorem lookupD_map_keyed {α β : Type} (f : String × α → β) :
    ∀ (d : List (String × α)) (n : String) (a : α),
      (n, a) ∈ d → keysUnique d = true →
      lookupD (d.map (fun p => (p.1, f p))) n = some (f (n, a)) := by
  intro d
  induction d with
  | nil => intro n a h; simp at h
  | cons p rest ih =>
      obtain ⟨k, w⟩ := p
      intro n a h hu
      simp only [keysUnique, Bool.and_eq_true, Bool.not_eq_true'] at hu
      rcases List.mem_cons.mp h with he | hm
      · injection he with he1 he2
        simp [lookupD, he1, he2]
      · have hk : (k == n) = false := by
          simp only [beq_eq_false_iff_ne]
          intro hkn
          subst hkn
          have : hasKey rest k = true := by
            rw [hasKey_eq_isSome]
            rw [lookupD_of_mem_unique rest k a hm hu.2]
            rfl
          simp [this] at hu
        simp [List.map, lookupD, hk, ih n a hm hu.2]

/-! ## Post-processing lemmas -/

theorem finishFields_not_mem (attrs : List String)
    (raws : List (String × List Char)) :
    ∀ (fields : List (String × FieldDef))
      (exposed : List (String × FieldValue)) (name : String),
      hasKey fields name = false →
      lookupD (finishFields attrs raws fields exposed) name =
        lookupD exposed name := by
  intro fields
  induction fields with
  | nil => intro exposed name h; simp [finishFields]
  | cons p rest ih =>
      obtain ⟨k1, fd⟩ := p
      intro exposed name h
      simp only [hasKey, Bool.or_eq_false_iff] at h
      simp only [finishFields]
      by_cases hc : (attrs.contains k1 || hasKey exposed k1) = true
      · rw [if_pos hc]
        exact ih exposed name h.2
      · rw [if_neg hc]
        rw [ih _ name h.2]
        rw [lookupD_append]
        cases hcase : lookupD exposed name <;> simp [hcase, lookupD, h.1]

theorem finishFields_mem (attrs : List String)
    (raws : List (String × List Char)) :
    ∀ (fields : List (String × FieldDef))
      (exposed : List (String × FieldValue)) (name : String) (fd : FieldDef),
      lookupD fields name = some fd → keysUnique fields = true →
      attrs.contains name = false →
      lookupD (finishFields attrs raws fields exposed) name =
        match lookupD exposed name with
        | some v => some v
        | none => some (finishVal raws fd name) := by
  intro fields
  induction fields with
  | nil => intro exposed name fd h hu ha; simp [lookupD] at h
  | cons p rest ih =>
      obtain ⟨k1, fd1⟩ := p
      intro exposed name fd h hu ha
      simp only [keysUnique, Bool.and_eq_true, Bool.not_eq_true'] at hu
      by_cases h1 : (k1 == name) = true
      · have hk1 : k1 = name := by simpa using h1
        subst hk1
        simp only [lookupD, if_pos h1, Option.some.injEq] at h
        subst h
        simp only [finishFields]
        by_cases he : hasKey exposed k1 = true
        · rw [if_pos (by simp [he])]
          rw [finishFields_not_mem attrs raws rest exposed k1 hu.1]
          have hs : (lookupD exposed k1).isSome = true := by
            rw [← hasKey_eq_isSome]; exact he
          obtain ⟨v, hv⟩ := Option.isSome_iff_exists.mp hs
          rw [hv]
        · have he2 : hasKey exposed k1 = false := by simpa using he
          rw [if_neg (show ¬(attrs.contains k1 || hasKey exposed k1) = true by
            rw [ha, he2]; simp)]
          rw [finishFields_not_mem attrs raws rest _ k1 hu.1]
          rw [lookupD_append]
          have hn : lookupD exposed k1 = none := by
            have := hasKey_eq_isSome exposed k1
            rw [he2] at this
            exact Option.not_isSome_iff_eq_none.mp (by simp [this.symm])
          rw [hn]
          simp [lookupD]
      · simp only [lookupD, h1, Bool.false_eq_true, if_false] at h
        simp only [finishFields]
        by_cases hc : (attrs.contains k1 || hasKey exposed k1) = true
        · rw [if_pos hc]
          exact ih exposed name fd h hu.2 ha
        · rw [if_neg hc]
          rw [ih _ name fd h hu.2 ha]
          rw [lookupD_append]
          cases hcase : lookupD exposed name <;> simp [hcase, lookupD, h1]

/-! ## Subroutine characterizations -/

theorem getRaw_error (raws : List (String × List Char)) (n : String)
    (e : PyError) (h : getRaw raws n = .error e) : e = .noSuchField n := by
  unfold getRaw at h
  cases hl : lookupD raws n <;> rw [hl] at h
  · injection h with h1; exact h1.symm
  · exact absurd h (by simp)

theorem getRaw_ok (raws : List (String × List Char)) (n : String)
    (v : List Char) (h : getRaw raws n = .ok v) : lookupD raws n = some v := by
  unfold getRaw at h
  cases hl : lookupD raws n <;> rw [hl] at h
  · exact absurd h (by simp)
  · injection h with h1; rw [h1]

theorem pyIntE_error (v : List Char) (e : PyError)
    (h : pyIntE v = .error e) : e = .intConversion v := by
  unfold pyIntE at h
  cases hl : pyInt v <;> rw [hl] at h
  · injection h with h1; exact h1.symm
  · exact absurd h (by simp)

theorem pyIntE_ok (v : List Char) (n : Int)
    (h : pyIntE v = .ok n) : pyInt v = some n := by
  unfold pyIntE at h
  cases hl : pyInt v <;> rw [hl] at h
  · exact absurd h (by simp)
  · injection h with h1; rw [h1]

theorem intStep_error (raws : List (String × List Char)) (n : String)
    (e : PyError) (h : intStep raws n = .error e) :
    e = .noSuchField n ∨ ∃ v, e = .intConversion v := by
  unfold intStep at h
  cases hg : getRaw raws n <;> rw [hg] at h
  · injection h with h1
    exact Or.inl (h1 ▸ getRaw_error _ _ _ hg)
  · exact Or.inr ⟨_, pyIntE_error _ _ h⟩

theorem intStep_ok (raws : List (String × List Char)) (n : String)
    (m : Int) (h : intStep raws n = .ok m) :
    ∃ v, lookupD raws n = some v ∧ pyInt v = some m := by
  unfold intStep at h
  cases hg : getRaw raws n <;> rw [hg] at h
  · exact absurd h (by simp)
  · exact ⟨_, getRaw_ok _ _ _ hg, pyIntE_ok _ _ h⟩

theorem decodeDate_error (v : List Char) (b : Bool) (e : PyError)
    (h : decodeDate v b = .error e) : e = .invalidDate v := by
  unfold decodeDate at h
  by_cases hl : v.length ≠ 6
  · rw [if_pos hl] at h
    injection h with h1; exact h1.symm
  · rw [if_neg hl] at h
    split at h
    · split at h
      · split at h
        · exact absurd h (by simp)
        · injection h with h4; exact h4.symm
      · split at h
        · exact absurd h (by simp)
        · injection h with h4; exact h4.symm
    · injection h with h4; exact h4.symm

theorem decodeTime_error (v : List Char) (e : PyError)
    (h : decodeTime v = .error e) : e = .invalidTime v := by
  unfold decodeTime at h
  by_cases hl : v.length ≠ 4
  · rw [if_pos hl] at h
    injection h with h1; exact h1.symm
  · rw [if_neg hl] at h
    split at h
    · split at h
      · exact absurd h (by simp)
      · injection h with h4; exact h4.symm
    · injection h with h4; exact h4.symm

theorem parseAsDate_error (raws : List (String × List Char)) (n : String)
    (b : Bool) (e : PyError) (h : parseAsDate raws n b = .error e) :
    e = .noSuchField n ∨ ∃ v, e = .invalidDate v := by
  unfold parseAsDate at h
  cases hl : lookupD raws n <;> rw [hl] at h
  · injection h with h1; exact Or.inl h1.symm
  · exact Or.inr ⟨_, decodeDate_error _ _ _ h⟩

theorem parseAsTime_error (raws : List (String × List Char)) (n : String)
    (e : PyError) (h : parseAsTime raws n = .error e) :
    e = .noSuchField n ∨ ∃ v, e = .invalidTime v := by
  unfold parseAsTime at h
  cases hl : lookupD raws n <;> rw [hl] at h
  · injection h with h1; exact Or.inl h1.symm
  · exact Or.inr ⟨_, decodeTime_error _ _ h⟩

theorem getRaw_error_kind (raws : List (String × List Char)) (n : String)
    (e : PyError) (h : getRaw raws n = .error e) :
    errKind e ≠ PyErrKind.parseError := by
  rw [getRaw_error _ _ _ h]; simp [errKind]

theorem intStep_error_kind (raws : List (String × List Char)) (n : String)
    (e : PyError) (h : intStep raws n = .error e) :
    errKind e ≠ PyErrKind.parseError := by
  rcases intStep_error _ _ _ h with h1 | ⟨v, h1⟩ <;> subst h1 <;> simp [errKind]

theorem parseAsDate_error_kind (raws : List (String × List Char)) (n : String)
    (b : Bool) (e : PyError) (h : parseAsDate raws n b = .error e) :
    errKind e ≠ PyErrKind.parseError := by
  rcases parseAsDate_error _ _ _ _ h with h1 | ⟨v, h1⟩ <;> subst h1 <;>
    simp [errKind]

theorem parseAsTime_error_kind (raws : List (String × List Char)) (n : String)
    (e : PyError) (h : parseAsTime raws n = .error e) :
    errKind e ≠ PyErrKind.parseError := by
  rcases parseAsTime_error _ _ _ h with h1 | ⟨v, h1⟩ <;> subst h1 <;>
    simp [errKind]

theorem pyIntE_error_kind (v : List Char) (e : PyError)
    (h : pyIntE v = .error e) : errKind e ≠ PyErrKind.parseError := by
  rw [pyIntE_error _ _ h]; simp [errKind]

/-- No `validate` method ever raises a `LockboxParseError` (in
particular never the record-too-long error). -/
theorem validateOf_error_kind (k : RecordKind)
    (raws : List (String × List Char)) (e : PyError)
    (h : validateOf k raws = .error e) :
    errKind e ≠ PyErrKind.parseError := by
  cases k
  case immediateAddressHeader =>
      simp only [validateOf] at h
      unfold immediateAddressHeaderValidate at h
      split at h
      · injection h with h1; subst h1
        rename_i e0 heq
        exact parseAsDate_error_kind _ _ _ _ heq
      · split at h
        · injection h with h1; subst h1
          rename_i e0 heq
          exact parseAsTime_error_kind _ _ _ heq
        · exact absurd h (by simp)
  case serviceRecord =>
      simp only [validateOf] at h
      exact absurd h (by simp)
  case detailHeader =>
      simp only [validateOf] at h
      unfold detailHeaderValidate at h
      split at h
      · injection h with h1; subst h1
        rename_i e0 heq
        exact intStep_error_kind _ _ _ heq
      · exact absurd h (by simp)
  case detailRecord =>
      simp only [validateOf] at h
      unfold detailRecordValidate at h
      split at h
      · injection h with h1; subst h1
        rename_i e0 heq
        exact getRaw_error_kind _ _ _ heq
      · unfold dRV1 at h
        split at h
        · injection h with h1; subst h1
          rename_i e0 heq
          exact intStep_error_kind _ _ _ heq
        · unfold dRV2 at h
          split at h
          · injection h with h1; subst h1
            rename_i e0 heq
            exact getRaw_error_kind _ _ _ heq
          · unfold dRV3 at h
            split at h
            · injection h with h1; subst h1
              rename_i e0 heq
              exact getRaw_error_kind _ _ _ heq
            · unfold dRV4 at h
              split at h
              · injection h with h1; subst h1
                rename_i e0 heq
                exact intStep_error_kind _ _ _ heq
              · unfold dRV5 at h
                split at h
                · injection h with h1; subst h1
                  rename_i e0 heq
                  exact getRaw_error_kind _ _ _ heq
                · unfold dRV6 at h
                  split at h
                  · injection h with h1; subst h1
                    rename_i e0 heq
                    exact getRaw_error_kind _ _ _ heq
                  · unfold dRV7 at h
                    split at h
                    · injection h with h1; subst h1
                      rename_i e0 heq
                      exact getRaw_error_kind _ _ _ heq
                    · split at h
                      · injection h with h1; subst h1
                        rename_i e0 heq
                        exact pyIntE_error_kind _ _ heq
                      · exact absurd h (by simp)
  case detailOverflowRecord =>
      simp only [validateOf] at h
      unfold detailOverflowRecordValidate at h
      split at h
      · injection h with h1; subst h1
        rename_i e0 heq
        exact intStep_error_kind _ _ _ heq
      · split at h
        · injection h with h1; subst h1
          rename_i e0 heq
          exact intStep_error_kind _ _ _ heq
        · split at h
          · injection h with h1; subst h1
            rename_i e0 heq
            exact intStep_error_kind _ _ _ heq
          · split at h
            · injection h with h1; subst h1
              rename_i e0 heq
              exact intStep_error_kind _ _ _ heq
            · exact absurd h (by simp)
  case batchTotalRecord =>
      simp only [validateOf] at h
      unfold batchTotalRecordValidate at h
      split at h
      · injection h with h1; subst h1
        rename_i e0 heq
        exact intStep_error_kind _ _ _ heq
      · split at h
        · injection h with h1; subst h1
          rename_i e0 heq
          exact intStep_error_kind _ _ _ heq
        · split at h
          · injection h with h1; subst h1
            rename_i e0 heq
            exact parseAsDate_error_kind _ _ _ _ heq
          · split at h
            · injection h with h1; subst h1
              rename_i e0 heq
              exact intStep_error_kind _ _ _ heq
            · split at h
              · injection h with h1; subst h1
                rename_i e0 heq
                exact intStep_error_kind _ _ _ heq
              · exact absurd h (by simp)
  case serviceTotalRecord =>
      simp only [validateOf] at h
      unfold serviceTotalRecordValidate at h
      split at h
      · injection h with h1; subst h1
        rename_i e0 heq
        exact intStep_error_kind _ _ _ heq
      · split at h
        · injection h with h1; subst h1
          rename_i e0 heq
          exact intStep_error_kind _ _ _ heq
        · split at h
          · injection h with h1; subst h1
            rename_i e0 heq
            exact parseAsDate_error_kind _ _ _ _ heq
          · split at h
            · injection h with h1; subst h1
              rename_i e0 heq
              exact intStep_error_kind _ _ _ heq
            · split at h
              · injection h with h1; subst h1
                rename_i e0 heq
                exact intStep_error_kind _ _ _ heq
              · exact absurd h (by simp)
  case destinationTrailerRecord =>
      simp only [validateOf] at h
      unfold destinationTrailerRecordValidate at h
      split at h
      · injection h with h1; subst h1
        rename_i e0 heq
        exact intStep_error_kind _ _ _ heq
      · exact absurd h (by simp)

/-! ## Validator success characterizations -/

theorem fst_setKey {α : Type} (d : List (String × α)) (k : String) (v : α) :
    (setKey d k v).map Prod.fst = d.map Prod.fst := by
  induction d with
  | nil => rfl
  | cons p rest ih =>
      obtain ⟨k1, w⟩ := p
      by_cases h1 : (k1 == k) = true
      · simp [setKey, h1, ih]
      · simp [setKey, h1, ih]

theorem fst_condSet (raws : List (String × List Char)) (k : String)
    (v : List Char) (c : Bool) :
    (if c then setKey raws k v else raws).map Prod.fst =
      raws.map Prod.fst := by
  cases c
  · simp
  · simp [fst_setKey]

theorem hasKey_eq_of_fst {α β : Type} :
    ∀ (d1 : List (String × α)) (d2 : List (String × β)),
      d1.map Prod.fst = d2.map Prod.fst →
      ∀ n, hasKey d1 n = hasKey d2 n := by
  intro d1
  induction d1 with
  | nil =>
      intro d2 h n
      cases d2
      · rfl
      · simp at h
  | cons p rest ih =>
      intro d2 h n
      cases d2 with
      | nil => simp at h
      | cons q rest2 =>
          obtain ⟨k1, v1⟩ := p
          obtain ⟨k2, v2⟩ := q
          simp only [List.map, List.cons.injEq] at h
          simp only [hasKey]
          rw [h.1, ih rest2 h.2 n]

theorem isSome_lookupD_of_fst {α β : Type} (d1 : List (String × α))
    (d2 : List (String × β)) (h : d1.map Prod.fst = d2.map Prod.fst)
    (n : String) : (lookupD d1 n).isSome = (lookupD d2 n).isSome := by
  rw [← hasKey_eq_isSome, ← hasKey_eq_isSome]
  exact hasKey_eq_of_fst d1 d2 h n

theorem lookupD_condSet_ne (raws : List (String × List Char)) (k : String)
    (v : List Char) (c : Bool) (n : String) (h : ¬n = k) :
    lookupD (if c then setKey raws k v else raws) n = lookupD raws n := by
  cases c
  · simp
  · simp [lookupD_setKey_ne raws k n v h]

theorem fst_numFallback (raws : List (String × List Char))
    (k : String) (v : List Char) :
    (numFallback raws k v).map Prod.fst = raws.map Prod.fst := by
  unfold numFallback
  cases hc : pyIsNumeric v
  · simp [fst_setKey]
  · simp

theorem lookupD_numFallback_ne (raws : List (String × List Char))
    (k : String) (v : List Char) (n : String) (h : ¬n = k) :
    lookupD (numFallback raws k v) n = lookupD raws n := by
  unfold numFallback
  cases hc : pyIsNumeric v
  · simp [lookupD_setKey_ne raws k n _ h]
  · simp

theorem dRV7_ok (raws5 : List (String × List Char)) (bn an : Int)
    (r2 : List (String × List Char)) (ex : List (String × FieldValue))
    (h : dRV7 raws5 bn an = .ok (r2, ex)) :
    r2 = raws5 ∧ ∃ cn, ex =
      [(("batch_number"), FieldValue.intv bn),
       (("check_amount"), FieldValue.amountv an),
       (("check_number"), FieldValue.intv cn)] := by
  unfold dRV7 at h
  split at h
  · exact absurd h (by simp)
  · split at h
    · exact absurd h (by simp)
    · simp only [Except.ok.injEq, Prod.mk.injEq] at h
      exact ⟨h.1.symm, _, h.2.symm⟩

theorem dRV6_ok (raws4 : List (String × List Char)) (bn an : Int)
    (r2 : List (String × List Char)) (ex : List (String × FieldValue))
    (h : dRV6 raws4 bn an = .ok (r2, ex)) :
    r2.map Prod.fst = raws4.map Prod.fst ∧
    (∀ n, ¬n = ("check_number") → lookupD r2 n = lookupD raws4 n) ∧
    ∃ cn, ex =
      [(("batch_number"), FieldValue.intv bn),
       (("check_amount"), FieldValue.amountv an),
       (("check_number"), FieldValue.intv cn)] := by
  unfold dRV6 at h
  split at h
  · exact absurd h (by simp)
  · obtain ⟨h1, hex⟩ := dRV7_ok _ _ _ _ _ h
    subst h1
    refine ⟨?_, ?_, hex⟩
    · exact fst_numFallback _ _ _
    · intro n hn; exact lookupD_numFallback_ne _ _ _ n hn

theorem dRV5_ok (raws3 : List (String × List Char)) (bn an : Int)
    (r2 : List (String × List Char)) (ex : List (String × FieldValue))
    (h : dRV5 raws3 bn an = .ok (r2, ex)) :
    r2.map Prod.fst = raws3.map Prod.fst ∧
    (∀ n, ¬n = ("check_number") → lookupD r2 n = lookupD raws3 n) ∧
    ∃ cn, ex =
      [(("batch_number"), FieldValue.intv bn),
       (("check_amount"), FieldValue.amountv an),
       (("check_number"), FieldValue.intv cn)] := by
  unfold dRV5 at h
  split at h
  · exact absurd h (by simp)
  · obtain ⟨h1, h2, hex⟩ := dRV6_ok _ _ _ _ _ h
    refine ⟨?_, ?_, hex⟩
    · rw [h1]
      exact fst_condSet _ _ _ _
    · intro n hn
      rw [h2 n hn]
      exact lookupD_condSet_ne _ _ _ _ n hn

theorem dRV4_ok (raws3 : List (String × List Char)) (bn : Int)
    (r2 : List (String × List Char)) (ex : List (String × FieldValue))
    (h : dRV4 raws3 bn = .ok (r2, ex)) :
    r2.map Prod.fst = raws3.map Prod.fst ∧
    (∀ n, ¬n = ("check_number") → lookupD r2 n = lookupD raws3 n) ∧
    ∃ an cn, ex =
      [(("batch_number"), FieldValue.intv bn),
       (("check_amount"), FieldValue.amountv an),
       (("check_number"), FieldValue.intv cn)] := by
  unfold dRV4 at h
  split at h
  · exact absurd h (by simp)
  · obtain ⟨h1, h2, cn, hex⟩ := dRV5_ok _ _ _ _ _ h
    exact ⟨h1, h2, _, cn, hex⟩

theorem dRV3_ok (rawsb : List (String × List Char)) (bn : Int)
    (r2 : List (String × List Char)) (ex : List (String × FieldValue))
    (h : dRV3 rawsb bn = .ok (r2, ex)) :
    r2.map Prod.fst = rawsb.map Prod.fst ∧
    (∀ n, ¬n = ("check_amount") → ¬n = ("check_number") →
      lookupD r2 n = lookupD rawsb n) ∧
    ∃ an cn, ex =
      [(("batch_number"), FieldValue.intv bn),
       (("check_amount"), FieldValue.amountv an),
       (("check_number"), FieldValue.intv cn)] := by
  unfold dRV3 at h
  split at h
  · exact absurd h (by simp)
  · obtain ⟨h1, h2, hex⟩ := dRV4_ok _ _ _ _ h
    refine ⟨?_, ?_, hex⟩
    · rw [h1]
      exact fst_numFallback _ _ _
    · intro n hna hnc
      rw [h2 n hnc]
      exact lookupD_numFallback_ne _ _ _ n hna

theorem dRV2_ok (raws1 : List (String × List Char)) (bn : Int)
    (r2 : List (String × List Char)) (ex : List (String × FieldValue))
    (h : dRV2 raws1 bn = .ok (r2, ex)) :
    r2.map Prod.fst = raws1.map Prod.fst ∧
    (∀ n, ¬n = ("item_number") → ¬n = ("check_amount") →
      ¬n = ("check_number") → lookupD r2 n = lookupD raws1 n) ∧
    ∃ an cn, ex =
      [(("batch_number"), FieldValue.intv bn),
       (("check_amount"), FieldValue.amountv an),
       (("check_number"), FieldValue.intv cn)] := by
  unfold dRV2 at h
  split at h
  · exact absurd h (by simp)
  · obtain ⟨h1, h2, hex⟩ := dRV3_ok _ _ _ _ h
    refine ⟨?_, ?_, hex⟩
    · rw [h1]
      exact fst_numFallback _ _ _
    · intro n hni hna hnc
      rw [h2 n hna hnc]
      exact lookupD_numFallback_ne _ _ _ n hni

theorem dRV1_ok (raws1 : List (String × List Char))
    (r2 : List (String × List Char)) (ex : List (String × FieldValue))
    (h : dRV1 raws1 = .ok (r2, ex)) :
    r2.map Prod.fst = raws1.map Prod.fst ∧
    (∀ n, ¬n = ("item_number") → ¬n = ("check_amount") →
      ¬n = ("check_number") → lookupD r2 n = lookupD raws1 n) ∧
    ∃ bn an cn, ex =
      [(("batch_number"), FieldValue.intv bn),
       (("check_amount"), FieldValue.amountv an),
       (("check_number"), FieldValue.intv cn)] := by
  unfold dRV1 at h
  split at h
  · exact absurd h (by simp)
  · obtain ⟨h1, h2, an, cn, hex⟩ := dRV2_ok _ _ _ _ h
    exact ⟨h1, h2, _, an, cn, hex⟩

theorem detailRecordValidate_ok (raws0 : List (String × List Char))
    (r2 : List (String × List Char)) (ex : List (String × FieldValue))
    (h : detailRecordValidate raws0 = .ok (r2, ex)) :
    r2.map Prod.fst = raws0.map Prod.fst ∧
    (∀ n, ¬n = ("batch_number") → ¬n = ("item_number") →
      ¬n = ("check_amount") → ¬n = ("check_number") →
      lookupD r2 n = lookupD raws0 n) ∧
    ∃ bn an cn, ex =
      [(("batch_number"), FieldValue.intv bn),
       (("check_amount"), FieldValue.amountv an),
       (("check_number"), FieldValue.intv cn)] := by
  unfold detailRecordValidate at h
  split at h
  · exact absurd h (by simp)
  · obtain ⟨h1, h2, hex⟩ := dRV1_ok _ _ _ h
    refine ⟨?_, ?_, hex⟩
    · rw [h1]
      exact fst_numFallback _ _ _
    · intro n hnb hni hna hnc
      rw [h2 n hni hna hnc]
      exact lookupD_numFallback_ne _ _ _ n hnb

theorem immediateAddressHeaderValidate_ok (raws : List (String × List Char))
    (r2 : List (String × List Char)) (ex : List (String × FieldValue))
    (h : immediateAddressHeaderValidate raws = .ok (r2, ex)) :
    r2 = raws ∧ ∃ y m d hh mi, ex =
      [(("processing_date"), FieldValue.datev y m d),
       (("processing_time"), FieldValue.timev hh mi)] := by
  unfold immediateAddressHeaderValidate at h
  split at h
  · exact absurd h (by simp)
  · split at h
    · exact absurd h (by simp)
    · simp only [Except.ok.injEq, Prod.mk.injEq] at h
      exact ⟨h.1.symm, _, _, _, _, _, h.2.symm⟩

theorem detailHeaderValidate_ok (raws : List (String × List Char))
    (r2 : List (String × List Char)) (ex : List (String × FieldValue))
    (h : detailHeaderValidate raws = .ok (r2, ex)) :
    r2 = raws ∧ ∃ bn, ex = [(("batch_number"), FieldValue.intv bn)] := by
  unfold detailHeaderValidate at h
  split at h
  · exact absurd h (by simp)
  · simp only [Except.ok.injEq, Prod.mk.injEq] at h
    exact ⟨h.1.symm, _, h.2.symm⟩

theorem detailOverflowRecordValidate_ok (raws : List (String × List Char))
    (r2 : List (String × List Char)) (ex : List (String × FieldValue))
    (h : detailOverflowRecordValidate raws = .ok (r2, ex)) :
    r2 = raws ∧ ∃ a b c d, ex =
      [(("batch_number"), FieldValue.intv a),
       (("item_number"), FieldValue.intv b),
       (("overflow_record_type"), FieldValue.intv c),
       (("overflow_sequence_number"), FieldValue.intv d)] := by
  unfold detailOverflowRecordValidate at h
  split at h
  · exact absurd h (by simp)
  · split at h
    · exact absurd h (by simp)
    · split at h
      · exact absurd h (by simp)
      · split at h
        · exact absurd h (by simp)
        · simp only [Except.ok.injEq, Prod.mk.injEq] at h
          exact ⟨h.1.symm, _, _, _, _, h.2.symm⟩

theorem batchTotalRecordValidate_ok (raws : List (String × List Char))
    (r2 : List (String × List Char)) (ex : List (String × FieldValue))
    (h : batchTotalRecordValidate raws = .ok (r2, ex)) :
    r2 = raws ∧ ∃ a b y m d t c, ex =
      [(("batch_number"), FieldValue.intv a),
       (("item_number"), FieldValue.intv b),
       (("deposit_date"), FieldValue.datev y m d),
       (("total_number_remittances"), FieldValue.intv t),
       (("check_dollar_total"), FieldValue.amountv c)] := by
  unfold batchTotalRecordValidate at h
  split at h
  · exact absurd h (by simp)
  · split at h
    · exact absurd h (by simp)
    · split at h
      · exact absurd h (by simp)
      · split at h
        · exact absurd h (by simp)
        · split at h
          · exact absurd h (by simp)
          · simp only [Except.ok.injEq, Prod.mk.injEq] at h
            exact ⟨h.1.symm, _, _, _, _, _, _, _, h.2.symm⟩

theorem serviceTotalRecordValidate_ok (raws : List (String × List Char))
    (r2 : List (String × List Char)) (ex : List (String × FieldValue))
    (h : serviceTotalRecordValidate raws = .ok (r2, ex)) :
    r2 = raws ∧ ∃ a b y m d t c, ex =
      [(("batch_number"), FieldValue.intv a),
       (("item_number"), FieldValue.intv b),
       (("deposit_date"), FieldValue.datev y m d),
       (("total_num_checks"), FieldValue.intv t),
       (("check_dollar_total"), FieldValue.amountv c)] := by
  unfold serviceTotalRecordValidate at h
  split at h
  · exact absurd h (by simp)
  · split at h
    · exact absurd h (by simp)
    · split at h
      · exact absurd h (by simp)
      · split at h
        · exact absurd h (by simp)
        · split at h
          · exact absurd h (by simp)
          · simp only [Except.ok.injEq, Prod.mk.injEq] at h
            exact ⟨h.1.symm, _, _, _, _, _, _, _, h.2.symm⟩

theorem destinationTrailerRecordValidate_ok (raws : List (String × List Char))
    (r2 : List (String × List Char)) (ex : List (String × FieldValue))
    (h : destinationTrailerRecordValidate raws = .ok (r2, ex)) :
    r2 = raws ∧ ∃ t, ex = [(("total_num_records"), FieldValue.intv t)] := by
  unfold destinationTrailerRecordValidate at h
  split at h
  · exact absurd h (by simp)
  · simp only [Except.ok.injEq, Prod.mk.injEq] at h
    exact ⟨h.1.symm, _, h.2.symm⟩

/-- The attribute names each `validate` method assigns (fields it
replaces with typed values). -/
def exposedNamesOf : RecordKind → List String
  | .immediateAddressHeader => [("processing_date"), ("processing_time")]
  | .serviceRecord => []
  | .detailHeader => [("batch_number")]
  | .detailRecord => [("batch_number"), ("check_amount"), ("check_number")]
  | .detailOverflowRecord =>
      [("batch_number"), ("item_number"), ("overflow_record_type"),
       ("overflow_sequence_number")]
  | .batchTotalRecord =>
      [("batch_number"), ("item_number"), ("deposit_date"),
       ("total_number_remittances"), ("check_dollar_total")]
  | .serviceTotalRecord =>
      [("batch_number"), ("item_number"), ("deposit_date"),
       ("total_num_checks"), ("check_dollar_total")]
  | .destinationTrailerRecord => [("total_num_records")]

/-- The raw attributes each `validate` method may overwrite (the
lenient-fallback mutations of `LockboxDetailRecord.validate`). -/
def mutatedNamesOf : RecordKind → List String
  | .detailRecord =>
      [("batch_number"), ("item_number"), ("check_amount"),
       ("check_number")]
  | _ => []

/-- What every successful `validate` run guarantees: raw attributes keep
existing (mutations only overwrite, and only the lenient-fallback names),
every attribute it sets is a non-absent typed value, and it only sets
the names of `exposedNamesOf`. -/
theorem validateOf_ok (k : RecordKind) (raws r2 : List (String × List Char))
    (ex : List (String × FieldValue))
    (h : validateOf k raws = .ok (r2, ex)) :
    r2.map Prod.fst = raws.map Prod.fst ∧
    (∀ n, n ∉ mutatedNamesOf k → lookupD r2 n = lookupD raws n) ∧
    (∀ p ∈ ex, p.2 ≠ FieldValue.absent) ∧
    (∀ p ∈ ex, p.1 ∈ exposedNamesOf k) := by
  cases k
  case immediateAddressHeader =>
      simp only [validateOf] at h
      obtain ⟨hr, y, m, d, hh, mi, hex⟩ :=
        immediateAddressHeaderValidate_ok _ _ _ h
      subst hr; subst hex
      exact ⟨rfl, fun n hn => rfl, by simp, by simp [exposedNamesOf]⟩
  case serviceRecord =>
      simp only [validateOf, Except.ok.injEq, Prod.mk.injEq] at h
      obtain ⟨hr, hex⟩ := h
      subst hr; subst hex
      exact ⟨rfl, fun n hn => rfl, by simp, by simp⟩
  case detailHeader =>
      simp only [validateOf] at h
      obtain ⟨hr, bn, hex⟩ := detailHeaderValidate_ok _ _ _ h
      subst hr; subst hex
      exact ⟨rfl, fun n hn => rfl, by simp, by simp [exposedNamesOf]⟩
  case detailRecord =>
      simp only [validateOf] at h
      obtain ⟨h1, h2, bn, an, cn, hex⟩ := detailRecordValidate_ok _ _ _ h
      subst hex
      refine ⟨h1, ?_, by simp, by simp [exposedNamesOf]⟩
      intro n hn
      simp only [mutatedNamesOf, List.mem_cons, List.not_mem_nil, or_false,
        not_or] at hn
      exact h2 n hn.1 hn.2.1 hn.2.2.1 hn.2.2.2
  case detailOverflowRecord =>
      simp only [validateOf] at h
      obtain ⟨hr, a, b, c, d, hex⟩ := detailOverflowRecordValidate_ok _ _ _ h
      subst hr; subst hex
      exact ⟨rfl, fun n hn => rfl, by simp, by simp [exposedNamesOf]⟩
  case batchTotalRecord =>
      simp only [validateOf] at h
      obtain ⟨hr, a, b, y, m, d, t, c, hex⟩ :=
        batchTotalRecordValidate_ok _ _ _ h
      subst hr; subst hex
      exact ⟨rfl, fun n hn => rfl, by simp, by simp [exposedNamesOf]⟩
  case serviceTotalRecord =>
      simp only [validateOf] at h
      obtain ⟨hr, a, b, y, m, d, t, c, hex⟩ :=
        serviceTotalRecordValidate_ok _ _ _ h
      subst hr; subst hex
      exact ⟨rfl, fun n hn => rfl, by simp, by simp [exposedNamesOf]⟩
  case destinationTrailerRecord =>
      simp only [validateOf] at h
      obtain ⟨hr, t, hex⟩ := destinationTrailerRecordValidate_ok _ _ _ h
      subst hr; subst hex
      exact ⟨rfl, fun n hn => rfl, by simp, by simp [exposedNamesOf]⟩

/-! ## Construction decomposition -/

theorem construct_long (k : RecordKind) (text : List Char)
    (h : MAX_RECORD_LENGTH < text.length) :
    construct k text = .error (.recordTooLong MAX_RECORD_LENGTH) := by
  unfold construct constructSt
  rw [if_pos h]

/-- `construct` unfolded: length gate, `_parse`, `validate`, generic
post-processing. -/
theorem construct_eq (k : RecordKind) (text : List Char) :
    construct k text =
      if MAX_RECORD_LENGTH < text.length then
        .error (.recordTooLong MAX_RECORD_LENGTH)
      else
        match parseFields text (runtimeFields k) (attrsOf k) [] with
        | .error e => .error e
        | .ok raws =>
            match validateOf k raws with
            | .error e => .error e
            | .ok (raws2, exposed) =>
                .ok ⟨text, finishFields (attrsOf k ++ rawAttrNames raws2)
                  raws2 (runtimeFields k) exposed⟩ := by
  unfold construct constructSt runtimeFields
  by_cases hl : MAX_RECORD_LENGTH < text.length
  · rw [if_pos hl, if_pos hl]
  · rw [if_neg hl, if_neg hl]
    cases hp : parseFields text
        (dictInsert (dictOfLiteral (fieldsLiteralOf k)) ("record_type")
          recordTypeFd) (attrsOf k) []
    · rfl
    · rename_i raws
      dsimp only
      cases hv : validateOf k raws
      · rfl
      · rename_i pr
        obtain ⟨r2, ex⟩ := pr
        rfl

theorem construct_ok_parts (k : RecordKind) (text : List Char) (r : PyRecord)
    (h : construct k text = .ok r) :
    ∃ raws raws2 exposed,
      text.length ≤ MAX_RECORD_LENGTH ∧
      parseFields text (runtimeFields k) (attrsOf k) [] = .ok raws ∧
      validateOf k raws = .ok (raws2, exposed) ∧
      r = ⟨text, finishFields (attrsOf k ++ rawAttrNames raws2) raws2
        (runtimeFields k) exposed⟩ := by
  rw [construct_eq] at h
  split at h
  · exact absurd h (by simp)
  · split at h
    · exact absurd h (by simp)
    · split at h
      · exact absurd h (by simp)
      · rename_i hl hx1 raws heq hx2 raws2 exposed heq2
        refine ⟨raws, raws2, exposed, Nat.le_of_not_lt hl, heq, heq2, ?_⟩
        injection h with h1
        exact h1.symm

theorem construct_short_not_tooLong (k : RecordKind) (text : List Char)
    (h : text.length ≤ MAX_RECORD_LENGTH) (n : Nat) :
    construct k text ≠ .error (.recordTooLong n) := by
  rw [construct_eq]
  rw [if_neg (Nat.not_lt.mpr h)]
  cases hp : parseFields text (runtimeFields k) (attrsOf k) []
  · rename_i e
    simp only []
    intro hc
    injection hc with hc1
    exact parseFields_error_not_tooLong text _ _ _ _ hp n hc1
  · rename_i raws
    simp only []
    cases hv : validateOf k raws
    · rename_i e
      simp only []
      intro hc
      injection hc with hc1
      subst hc1
      exact validateOf_error_kind k raws _ hv (by simp [errKind])
    · rename_i pr
      obtain ⟨raws2, exposed⟩ := pr
      simp

/-! ## Claim theorems -/

/-- C6: for every record kind, an input line longer than 160 characters
makes construction fail with the record-too-long `LockboxParseError`
regardless of the line's content (the result is a constant, so no field
of the input is examined), and a line of length at most 160 never fails
with that error. -/
theorem C6_record_length_gate :
    (∀ (k : RecordKind) (text : List Char), 160 < text.length →
      construct k text = .error (.recordTooLong 160)) ∧
    (∀ (k : RecordKind) (text : List Char), text.length ≤ 160 →
      ∀ n, construct k text ≠ .error (.recordTooLong n)) :=
  ⟨fun k text h => construct_long k text h,
   fun k text h n => construct_short_not_tooLong k text h n⟩

/-- Witness for C6 at concrete inputs: a 161-character line fails as
too long; the empty line does not fail with the too-long error. -/
theorem C6_witness :
    construct RecordKind.serviceRecord (List.replicate 161 ('A')) =
      .error (.recordTooLong 160) ∧
    construct RecordKind.serviceRecord [] ≠ .error (.recordTooLong 160) :=
  ⟨C6_record_length_gate.1 _ _ (by simp),
   C6_record_length_gate.2 _ _ (by simp) 160⟩

theorem constructSt_snd (k : RecordKind) (s : List (String × FieldDef))
    (text : List Char) :
    (constructSt k s text).2 =
      if MAX_RECORD_LENGTH < text.length then s
      else dictInsert s ("record_type") recordTypeFd := by
  unfold constructSt
  by_cases hl : MAX_RECORD_LENGTH < text.length
  · rw [if_pos hl, if_pos hl]
  · rw [if_neg hl, if_neg hl]
    cases hp : parseFields text (dictInsert s ("record_type") recordTypeFd)
        (attrsOf k) []
    · rfl
    · rename_i raws
      dsimp only
      cases hv : validateOf k raws
      · rfl
      · rename_i pr
        obtain ⟨r2, ex⟩ := pr
        rfl

theorem constructSt_fst_state (k : RecordKind)
    (s t : List (String × FieldDef)) (text : List Char)
    (he : dictInsert s ("record_type") recordTypeFd =
      dictInsert t ("record_type") recordTypeFd) :
    (constructSt k s text).1 = (constructSt k t text).1 := by
  unfold constructSt
  by_cases hl : MAX_RECORD_LENGTH < text.length
  · rw [if_pos hl, if_pos hl]
  · rw [if_neg hl, if_neg hl, he]

/-- C9: record construction is deterministic and effectively stateless:
the only state `__init__` mutates is the class-level `fields` dict
(inserting `record_type`), and re-running construction on the identical
raw text from the post-construction state returns the identical result
(and hence identical field values or the same failure). -/
theorem C9_reparse_deterministic (k : RecordKind)
    (s : List (String × FieldDef)) (text : List Char) :
    (constructSt k ((constructSt k s text).2) text).1 =
      (constructSt k s text).1 := by
  rw [constructSt_snd]
  by_cases hl : MAX_RECORD_LENGTH < text.length
  · rw [if_pos hl]
  · rw [if_neg hl]
    exact constructSt_fst_state k _ s text
      (dictInsert_idem s ("record_type") recordTypeFd)

/-! ## Digit-string lemmas -/

theorem digit_not_space (c : Char) (h : isDigit09 c = true) :
    isPySpace c = false := by
  cases h1 : isPySpace c
  · rfl
  · simp only [isPySpace, Bool.or_eq_true, beq_iff_eq] at h1
    rcases h1 with ((((h2 | h2) | h2) | h2) | h2) | h2 <;> subst h2 <;>
      exact absurd h (by decide)

theorem digit_ne_char (c d : Char) (h : isDigit09 c = true)
    (hd : isDigit09 d = false) : (c == d) = false := by
  cases h1 : (c == d)
  · rfl
  · have h2 : c = d := by simpa using h1
    subst h2
    rw [h] at hd
    exact absurd hd (by simp)

theorem dropWhile_eq_self_of_false {p : Char → Bool} (s : List Char)
    (h : ∀ c ∈ s, p c = false) : s.dropWhile p = s := by
  cases s with
  | nil => rfl
  | cons a t => simp [List.dropWhile_cons, h a (by simp)]

theorem pyStrip_of_no_space (s : List Char)
    (h : ∀ c ∈ s, isPySpace c = false) : pyStrip s = s := by
  unfold pyStrip
  rw [dropWhile_eq_self_of_false s h,
    dropWhile_eq_self_of_false s.reverse (fun c hc => h c (by simpa using hc)),
    List.reverse_reverse]

theorem noDoubleUnderscore_of_ne (s : List Char)
    (h : ∀ c ∈ s, (c == '_') = false) : noDoubleUnderscore s = true := by
  induction s with
  | nil => rfl
  | cons a t ih =>
      cases t with
      | nil => rfl
      | cons b u =>
          have ha := h a (by simp)
          have hrest : noDoubleUnderscore (b :: u) = true :=
            ih (fun c hc => h c (List.mem_cons_of_mem _ hc))
          simp [noDoubleUnderscore, ha, hrest]

theorem pyDigitsOk_of_digits (s : List Char) (hne : s ≠ [])
    (h : ∀ c ∈ s, isDigit09 c = true) : pyDigitsOk s = true := by
  have hu : ∀ c ∈ s, (c == '_') = false :=
    fun c hc => digit_ne_char c '_' (h c hc) (by decide)
  unfold pyDigitsOk
  have h1 : s.isEmpty = false := by
    cases s
    · exact absurd rfl hne
    · rfl
  have h2 : s.all (fun c => isDigit09 c || c == '_') = true := by
    rw [List.all_eq_true]
    intro c hc
    simp [h c hc]
  have h3 : headIsNotUnderscore s = true := by
    cases s with
    | nil => rfl
    | cons a t => simp [headIsNotUnderscore, hu a (by simp)]
  have h4 : headIsNotUnderscore s.reverse = true := by
    cases hr : s.reverse with
    | nil => rfl
    | cons a t =>
        have ha : a ∈ s := by
          have : a ∈ s.reverse := by rw [hr]; simp
          simpa using this
        simp [headIsNotUnderscore, hu a ha]
  rw [h1, h2, h3, h4, noDoubleUnderscore_of_ne s hu]
  rfl

theorem stripUnderscores_of_digits (s : List Char)
    (h : ∀ c ∈ s, isDigit09 c = true) : stripUnderscores s = s := by
  unfold stripUnderscores
  rw [List.filter_eq_self]
  intro c hc
  simp [digit_ne_char c '_' (h c hc) (by decide)]

/-- Python `int()` on a non-empty all-digit string returns its decimal
value. -/
theorem pyInt_digits (s : List Char) (h : pyIsNumeric s = true) :
    pyInt s = some (Int.ofNat (digitsVal s)) := by
  have hch : ∀ c ∈ s, isDigit09 c = true := by
    have := h
    unfold pyIsNumeric at this
    simp only [Bool.and_eq_true, List.all_eq_true] at this
    exact fun c hc => this.2 c hc
  have hne : s ≠ [] := by
    have := h
    unfold pyIsNumeric at this
    simp only [Bool.and_eq_true] at this
    intro hc
    subst hc
    exact absurd this.1 (by simp)
  unfold pyInt
  rw [pyStrip_of_no_space s (fun c hc => digit_not_space c (hch c hc))]
  cases s with
  | nil => exact absurd rfl hne
  | cons a t =>
      have ha : isDigit09 a = true := hch a (by simp)
      have hplus : (a == '+') = false := digit_ne_char a '+' ha (by decide)
      have hminus : (a == '-') = false := digit_ne_char a '-' ha (by decide)
      unfold pyIntCore
      dsimp only
      rw [if_neg (by simp [hplus]), if_neg (by simp [hminus]),
        if_pos (pyDigitsOk_of_digits _ hne hch),
        stripUnderscores_of_digits _ hch]

theorem mem_of_mem_pySlice (v : List Char) (a b : Nat) (c : Char)
    (h : c ∈ pySlice v a b) : c ∈ v := by
  unfold pySlice at h
  exact List.mem_of_mem_take (List.mem_of_mem_drop h)

theorem pyIsNumeric_pySlice (v : List Char) (a b : Nat)
    (h : ∀ c ∈ v, isDigit09 c = true) (hl : pySlice v a b ≠ []) :
    pyIsNumeric (pySlice v a b) = true := by
  unfold pyIsNumeric
  have h1 : (pySlice v a b).isEmpty = false := by
    cases hc : pySlice v a b
    · exact absurd hc hl
    · rfl
  rw [h1, List.all_eq_true.mpr
    (fun c hc => h c (mem_of_mem_pySlice v a b c hc))]
  rfl

/-- C7: `decode_date` (`_parse_as_date`) on a 6-character digit string
splits it per the selected order (`YYMMDD` when `mmddyy` is false,
`MMDDYY` when true), interprets the two-digit year as `2000 + YY`, and
returns the corresponding date when the calendar values are valid; it
fails with a `LockboxDefinitionError` when the string is not exactly 6
characters or the calendar values are invalid.  In particular
`decode_date("250615", YYMMDD) = 2025-06-15`,
`decode_date("061525", MMDDYY) = 2025-06-15`, and
`decode_date("251305", YYMMDD)` fails. -/
theorem C7_decode_date :
    (∀ (v : List Char) (o : Bool), v.length ≠ 6 →
      decodeDate v o = .error (.invalidDate v) ∧
      errKind (.invalidDate v) = .definitionError) ∧
    (∀ v : List Char, v.length = 6 → (∀ c ∈ v, isDigit09 c = true) →
      decodeDate v false =
        (if isValidDate (Int.ofNat (digitsVal (pySlice v 0 2)) + 2000)
            (Int.ofNat (digitsVal (pySlice v 2 4)))
            (Int.ofNat (digitsVal (pySlice v 4 6))) = true
         then .ok (Int.ofNat (digitsVal (pySlice v 0 2)) + 2000,
                   Int.ofNat (digitsVal (pySlice v 2 4)),
                   Int.ofNat (digitsVal (pySlice v 4 6)))
         else .error (.invalidDate v)) ∧
      decodeDate v true =
        (if isValidDate (Int.ofNat (digitsVal (pySlice v 4 6)) + 2000)
            (Int.ofNat (digitsVal (pySlice v 0 2)))
            (Int.ofNat (digitsVal (pySlice v 2 4))) = true
         then .ok (Int.ofNat (digitsVal (pySlice v 4 6)) + 2000,
                   Int.ofNat (digitsVal (pySlice v 0 2)),
                   Int.ofNat (digitsVal (pySlice v 2 4)))
         else .error (.invalidDate v))) ∧
    decodeDate (sL ("250615")) false = .ok (2025, 6, 15) ∧
    decodeDate (sL ("061525")) true = .ok (2025, 6, 15) ∧
    decodeDate (sL ("251305")) false =
      .error (.invalidDate (sL ("251305"))) := by
  refine ⟨?_, ?_, by decide, by decide, by decide⟩
  · intro v o hlen
    refine ⟨?_, rfl⟩
    unfold decodeDate
    rw [if_pos hlen]
  · intro v hlen hdig
    have hs1 : (pySlice v 0 2).length = 2 := by
      simp [pySlice, hlen]
    have hs2 : (pySlice v 2 4).length = 2 := by
      simp [pySlice, hlen]
    have hs3 : (pySlice v 4 6).length = 2 := by
      simp [pySlice, hlen]
    have h02 : pyInt (pySlice v 0 2) =
        some (Int.ofNat (digitsVal (pySlice v 0 2))) :=
      pyInt_digits _ (pyIsNumeric_pySlice v 0 2 hdig
        (by intro hc; rw [hc] at hs1; simp at hs1))
    have h24 : pyInt (pySlice v 2 4) =
        some (Int.ofNat (digitsVal (pySlice v 2 4))) :=
      pyInt_digits _ (pyIsNumeric_pySlice v 2 4 hdig
        (by intro hc; rw [hc] at hs2; simp at hs2))
    have h46 : pyInt (pySlice v 4 6) =
        some (Int.ofNat (digitsVal (pySlice v 4 6))) :=
      pyInt_digits _ (pyIsNumeric_pySlice v 4 6 hdig
        (by intro hc; rw [hc] at hs3; simp at hs3))
    constructor
    · unfold decodeDate
      rw [if_neg (by simp [hlen])]
      simp only [h02, h24, h46, Bool.false_eq_true, if_false, if_true]
    · unfold decodeDate
      rw [if_neg (by simp [hlen])]
      simp only [h02, h24, h46, Bool.false_eq_true, if_false, if_true]

/-- Witness for C7: a 5-character string fails; a 6-digit string decodes
via the general clause to the expected date. -/
theorem C7_witness :
    decodeDate (sL ("12345")) false =
      .error (.invalidDate (sL ("12345"))) ∧
    decodeDate (sL ("990101")) false = .ok (2099, 1, 1) := by
  constructor
  · exact (C7_decode_date.1 _ false (by decide)).1
  · have h := (C7_decode_date.2.1 (sL ("990101")) (by decide) (by decide)).1
    rw [h]
    decide

theorem alnumClassChar_iff (c : Char) :
    alnumClassChar c = true ↔ (specAlphanumericChar c = true ∨ c = apos) := by
  unfold alnumClassChar specAlphanumericChar
  simp only [Bool.or_eq_true, beq_iff_eq]
  tauto

/-- C5 counterexample: the claim states that the Alphanumeric class is
exactly `{space, A-Z, 0-9, ; : , . / ( ) -}` and that a value containing
an apostrophe fails; but the code's regex `[ A-Z0-9;:,'./()-]` contains
the apostrophe, so `O'BRIEN` — which has a character outside the spec's
set — passes validation, and a whole ImmediateAddressHeader line
containing it is accepted. -/
theorem C5_counterexample :
    matchesFieldType .Alphanumeric (sL ("O'BRIEN")) = true ∧
    (sL ("O'BRIEN")).all specAlphanumericChar = false ∧
    isOkE (construct RecordKind.immediateAddressHeader
      (sL ("101O'BRIEN   01234567892506151345"))) = true :=
  ⟨by decide, by decide, by decide⟩

/-- C5 (amended): Alphanumeric validation accepts a trimmed value
exactly when it is non-empty and every character is in the spec's set
*plus the apostrophe*; and a field whose stripped slice does not match
its declared class makes `_parse` fail with a field-type-mismatch
`LockboxParseError` naming that field. -/
theorem C5_alphanumeric_class :
    (∀ s : List Char, matchesFieldType .Alphanumeric s = true ↔
      (s ≠ [] ∧ ∀ c ∈ s, (specAlphanumericChar c = true ∨ c = apos))) ∧
    (∀ (text : List Char) (name : String) (fd : FieldDef)
       (rest : List (String × FieldDef)) (attrs : List String)
       (acc : List (String × List Char)),
      attrs.contains name = false →
      matchesFieldType fd.ftype
        (pyStrip (pySlice text fd.startCol fd.endCol)) = false →
      parseFields text ((name, fd) :: rest) attrs acc =
        .error (.fieldTypeMismatch name fd.ftype
          (pySlice text fd.startCol fd.endCol)) ∧
      errKind (.fieldTypeMismatch name fd.ftype
        (pySlice text fd.startCol fd.endCol)) = .parseError) := by
  constructor
  · intro s
    show (!s.isEmpty && s.all alnumClassChar) = true ↔ _
    constructor
    · intro h
      simp only [Bool.and_eq_true, Bool.not_eq_true', List.all_eq_true] at h
      refine ⟨?_, fun c hc => (alnumClassChar_iff c).mp (h.2 c hc)⟩
      intro hnil
      subst hnil
      simp at h
    · rintro ⟨h1, h2⟩
      simp only [Bool.and_eq_true, Bool.not_eq_true', List.all_eq_true]
      refine ⟨?_, fun c hc => (alnumClassChar_iff c).mpr (h2 c hc)⟩
      cases s
      · exact absurd rfl h1
      · rfl
  · intro text name fd rest attrs acc ha hm
    refine ⟨?_, rfl⟩
    simp only [parseFields]
    have ha2 : ¬attrs.contains name = true := by
      intro hc
      rw [hc] at ha
      exact absurd ha (by simp)
    rw [if_neg ha2, if_neg (by simp [hm])]

/-- Witness for C5: a value inside the class is accepted via the iff; a
field value outside the class is rejected with the named error. -/
theorem C5_witness :
    matchesFieldType .Alphanumeric (sL ("AB C")) = true ∧
    parseFields (sL ("1&")) [(("destination_id"), ⟨1, 2, .Alphanumeric⟩)]
      baseAttrs [] =
      .error (.fieldTypeMismatch ("destination_id") .Alphanumeric
        (sL ("&"))) := by
  constructor
  · exact (C5_alphanumeric_class.1 (sL ("AB C"))).mpr ⟨by decide, by decide⟩
  · exact (C5_alphanumeric_class.2 (sL ("1&")) ("destination_id")
      ⟨1, 2, .Alphanumeric⟩ [] baseAttrs [] (by decide) (by decide)).1

/-- A key occurring twice in an association-list literal. -/
def hasDupKey {α : Type} (l : List (String × α)) : Bool := !keysUnique l

/-- C2 counterexample: the `LockboxDetailHeader.fields` literal contains
the field name `destination` twice, yet construction of a detail-header
record *succeeds* — no `DefinitionError` (nor any error) is raised for
the duplicate, contradicting the claimed rejection before any text is
examined. -/
theorem C2_counterexample :
    hasDupKey detailHeaderFields = true ∧
    isOkE (construct RecordKind.detailHeader (sL ("5001"))) = true :=
  ⟨by decide, by decide⟩

/-- C2 (amended): a duplicate field name in a schema dict literal is
silently collapsed before any text is examined — the later entry
overwrites the earlier one (Python dict literal semantics), so the
runtime dictionary always has unique keys — and construction proceeds
normally; for `LockboxDetailHeader`, `destination` resolves to the
later `(30, 40)` entry and a well-formed line is accepted. -/
theorem C2_duplicate_fields_collapse :
    (∀ l : List (String × FieldDef), keysUnique (dictOfLiteral l) = true) ∧
    hasDupKey detailHeaderFields = true ∧
    lookupD (dictOfLiteral detailHeaderFields) ("destination") =
      some ⟨30, 40, .AlphanumericOrBlank⟩ ∧
    isOkE (construct RecordKind.detailHeader (sL ("5001"))) = true :=
  ⟨fun l => keysUnique_dictOfLiteral l, by decide, by decide, by decide⟩

/-- C4 counterexample: a DetailHeader line whose `batch_number` raw
value is `ABC` passes character-class validation but the hard `int()`
parse fails — the record fails with the *unwrapped* `ValueError`, not
with the `LockboxDefinitionError` kind used for date/time decode
failures. -/
theorem C4_counterexample :
    construct RecordKind.detailHeader (sL ("5ABC")) =
      .error (.intConversion (sL ("ABC"))) ∧
    errKind (.intConversion (sL ("ABC"))) = .valueError ∧
    PyErrKind.valueError ≠ PyErrKind.definitionError :=
  ⟨by decide, rfl, by decide⟩

/-- The first field each no-fallback validator converts with `int()`. -/
def firstHardField : RecordKind → String
  | .detailHeader => ("batch_number")
  | .detailOverflowRecord => ("batch_number")
  | .batchTotalRecord => ("batch_number")
  | .serviceTotalRecord => ("batch_number")
  | .destinationTrailerRecord => ("total_num_records")
  | _ => ("")

theorem intStep_error_of (raws : List (String × List Char)) (n : String)
    (v : List Char) (h1 : lookupD raws n = some v) (h2 : pyInt v = none) :
    intStep raws n = .error (.intConversion v) := by
  unfold intStep getRaw pyIntE
  rw [h1]
  dsimp only
  rw [h2]

theorem validateOf_first_hard (k : RecordKind)
    (hk : k ∈ [RecordKind.detailHeader, RecordKind.detailOverflowRecord,
      RecordKind.batchTotalRecord, RecordKind.serviceTotalRecord,
      RecordKind.destinationTrailerRecord])
    (raws : List (String × List Char)) (v : List Char)
    (h1 : lookupD raws (firstHardField k) = some v) (h2 : pyInt v = none) :
    validateOf k raws = .error (.intConversion v) := by
  simp only [List.mem_cons, List.not_mem_nil, or_false] at hk
  rcases hk with rfl | rfl | rfl | rfl | rfl <;>
    [(have hs := intStep_error_of raws ("batch_number") v h1 h2);
     (have hs := intStep_error_of raws ("batch_number") v h1 h2);
     (have hs := intStep_error_of raws ("batch_number") v h1 h2);
     (have hs := intStep_error_of raws ("batch_number") v h1 h2);
     (have hs := intStep_error_of raws ("total_num_records") v h1 h2)] <;>
    simp only [validateOf, detailHeaderValidate, detailOverflowRecordValidate,
      batchTotalRecordValidate, serviceTotalRecordValidate,
      destinationTrailerRecordValidate] <;>
    rw [hs]

/-- C4 (amended): for every record kind whose validator performs a hard
integer parse with no fallback, a raw value that `int()` rejects makes
record construction fail with the unwrapped conversion `ValueError` —
an error kind *different* from the `LockboxDefinitionError` used for
date/time decode failures (shown here for the first hard-parsed field
of each such kind). -/
theorem C4_hard_int_error_kind :
    ∀ k ∈ [RecordKind.detailHeader, RecordKind.detailOverflowRecord,
      RecordKind.batchTotalRecord, RecordKind.serviceTotalRecord,
      RecordKind.destinationTrailerRecord],
    ∀ (text : List Char) (raws : List (String × List Char)) (v : List Char),
      text.length ≤ 160 →
      parseFields text (runtimeFields k) (attrsOf k) [] = .ok raws →
      lookupD raws (firstHardField k) = some v →
      pyInt v = none →
      construct k text = .error (.intConversion v) ∧
      errKind (.intConversion v) = .valueError ∧
      errKind (.invalidDate v) = .definitionError := by
  intro k hk text raws v hlen hp hlook hpy
  refine ⟨?_, rfl, rfl⟩
  rw [construct_eq,
    if_neg (show ¬MAX_RECORD_LENGTH < text.length from Nat.not_lt.mpr hlen),
    hp]
  dsimp only
  rw [validateOf_first_hard k hk raws v hlook hpy]

/-- Witness for C4 at the concrete DetailHeader line `5ABC`. -/
theorem C4_witness :
    construct RecordKind.detailHeader (sL ("5ABC")) =
      .error (.intConversion (sL ("ABC"))) :=
  (C4_hard_int_error_kind RecordKind.detailHeader (by decide) (sL ("5ABC"))
    [(("batch_number"), sL ("ABC")), (("item_number"), []),
     (("lockbox_number"), []), (("deposit_date"), []),
     (("destination"), []), (("filler"), []), (("record_type"), ['5'])]
    (sL ("ABC")) (by decide) (by decide) (by decide) (by decide)).1

/-- C1 counterexample: for the ServiceRecord line `2ABC ` (trailing
space inside the destination columns), the value recorded and exposed
for `destination` is the *untrimmed* slice `ABC ` — not the trimmed
`ABC` that the claim asserts. -/
theorem C1_counterexample :
    Except.map (fun r => lookupField r ("destination"))
      (construct RecordKind.serviceRecord (sL ("2ABC "))) =
      .ok (some (FieldValue.strv (sL ("ABC ")))) ∧
    pyStrip (sL ("ABC ")) ≠ sL ("ABC ") :=
  ⟨by decide, by decide⟩

theorem rawAttrNames_map (fields : List (String × FieldDef))
    (g : String × FieldDef → List Char) :
    rawAttrNames (fields.map (fun p => (p.1, g p))) =
      fields.map (fun p => ("_") ++ p.1 ++ ("_raw")) := by
  unfold rawAttrNames
  rw [List.map_map]
  rfl

/-- C1 (amended): the value recorded as a field's raw value is the
*untrimmed* substring `raw_text[start:end]` (trimming is applied only
when matching the character class), and — shown for the validator-free
ServiceRecord kind — every non-Blank field is exposed as exactly that
untrimmed slice. -/
theorem C1_raw_values_untrimmed :
    (∀ (text : List Char) (fields : List (String × FieldDef))
       (attrs : List String) (acc raws : List (String × List Char)),
      parseFields text fields attrs acc = .ok raws →
      raws = acc ++ fields.map
        (fun p => (p.1, pySlice text p.2.startCol p.2.endCol))) ∧
    (∀ (text : List Char) (r : PyRecord),
      construct RecordKind.serviceRecord text = .ok r →
      ∀ p ∈ runtimeFields RecordKind.serviceRecord, p.2.ftype ≠ .Blank →
        lookupField r p.1 =
          some (.strv (pySlice text p.2.startCol p.2.endCol))) := by
  constructor
  · exact fun text fields attrs acc raws h =>
      parseFields_ok_raws text fields attrs acc raws h
  · intro text r h p hp hbl
    obtain ⟨raws, raws2, exposed, hlen, hp2, hv, hr⟩ :=
      construct_ok_parts _ _ _ h
    have hv2 : raws = raws2 ∧ ([] : List (String × FieldValue)) = exposed := by
      simp only [validateOf, Except.ok.injEq, Prod.mk.injEq] at hv
      exact hv
    obtain ⟨hvr, hve⟩ := hv2
    subst hvr
    subst hve
    subst hr
    have hraws := parseFields_ok_raws _ _ _ _ _ hp2
    simp only [List.nil_append] at hraws
    subst hraws
    have hu : keysUnique (runtimeFields RecordKind.serviceRecord) = true := by
      decide
    have hlook : lookupD (runtimeFields RecordKind.serviceRecord) p.1 =
        some p.2 :=
      lookupD_of_mem_unique _ _ _ (by simpa using hp) hu
    have hattr0 : ∀ q ∈ runtimeFields RecordKind.serviceRecord,
        (attrsOf RecordKind.serviceRecord ++
          (runtimeFields RecordKind.serviceRecord).map
            (fun x => ("_") ++ x.1 ++ ("_raw"))).contains q.1 = false := by
      decide
    have hattr : (attrsOf RecordKind.serviceRecord ++
        rawAttrNames ((runtimeFields RecordKind.serviceRecord).map
          (fun q => (q.1, pySlice text q.2.startCol q.2.endCol)))).contains
        p.1 = false := by
      rw [rawAttrNames_map]
      exact hattr0 p hp
    have hlr : lookupD ((runtimeFields RecordKind.serviceRecord).map
        (fun q => (q.1, pySlice text q.2.startCol q.2.endCol))) p.1 =
        some (pySlice text p.2.startCol p.2.endCol) :=
      lookupD_map_keyed (fun q => pySlice text q.2.startCol q.2.endCol)
        (runtimeFields RecordKind.serviceRecord) p.1 p.2
        (by simpa using hp) hu
    unfold lookupField
    dsimp only
    rw [finishFields_mem _ _ _ _ _ _ hlook hu hattr]
    show some (finishVal _ p.2 p.1) = _
    unfold finishVal
    cases hft : p.2.ftype
    case Blank => exact absurd hft hbl
    all_goals rw [hlr]

/-- Witness for C1 (amended) at the concrete ServiceRecord line
`2ABC `. -/
theorem C1_witness :
    lookupField
      ⟨sL ("2ABC "),
       [(("destination"), FieldValue.strv (sL ("ABC "))),
        (("bank_origin"), FieldValue.strv []),
        (("reference_code"), FieldValue.strv []),
        (("service_code"), FieldValue.strv []),
        (("record_length"), FieldValue.strv []),
        (("characters_per_block"), FieldValue.strv []),
        (("partial_compression"), FieldValue.strv []),
        (("filler"), FieldValue.absent),
        (("record_type"), FieldValue.strv (['2']))]⟩ ("destination") =
      some (FieldValue.strv (sL ("ABC "))) :=
  C1_raw_values_untrimmed.2 (sL ("2ABC "))
    ⟨sL ("2ABC "),
     [(("destination"), FieldValue.strv (sL ("ABC "))),
      (("bank_origin"), FieldValue.strv []),
      (("reference_code"), FieldValue.strv []),
      (("service_code"), FieldValue.strv []),
      (("record_length"), FieldValue.strv []),
      (("characters_per_block"), FieldValue.strv []),
      (("partial_compression"), FieldValue.strv []),
      (("filler"), FieldValue.absent),
      (("record_type"), FieldValue.strv (['2']))]⟩ (by decide)
    (("destination"), ⟨1, 11, .AlphanumericOrBlank⟩) (by decide) (by decide)

theorem pyStrip_single (c : Char) :
    pyStrip [c] = if isPySpace c then [] else [c] := by
  unfold pyStrip
  cases hc : isPySpace c <;> simp [List.dropWhile_cons, hc]

theorem lookupD_none_of_names {β : Type} (d : List (String × β)) (n : String)
    (names : List String) (h : ∀ p ∈ d, p.1 ∈ names) (hn : n ∉ names) :
    lookupD d n = none := by
  cases hl : lookupD d n
  · rfl
  · exact absurd (h _ (lookupD_mem d n _ hl)) hn

theorem rawAttrNames_eq_fst (d : List (String × List Char)) :
    rawAttrNames d =
      (d.map Prod.fst).map (fun n => ("_") ++ n ++ ("_raw")) := by
  unfold rawAttrNames
  rw [List.map_map]
  rfl

/-- C10: for every record kind with a schema, `__init__` implicitly adds
a `record_type` field at columns `(0, 1)` with type `Numeric` before
parsing, so: the runtime schema contains it; a successfully constructed
record has an ASCII digit as its first character and exposes
`record_type` as that one-character string; and the empty line always
fails with a `LockboxParseError`. -/
theorem C10_record_type :
    (∀ k, lookupD (runtimeFields k) ("record_type") = some recordTypeFd) ∧
    (∀ (k : RecordKind) (text : List Char) (r : PyRecord),
      construct k text = .ok r →
      ∃ c, text.head? = some c ∧ isDigit09 c = true ∧
        lookupField r ("record_type") = some (.strv [c])) ∧
    (∀ k : RecordKind, ∃ e, construct k [] = .error e ∧
      errKind e = .parseError) := by
  refine ⟨by intro k; cases k <;> decide, ?_, ?_⟩
  · intro k text r h
    obtain ⟨raws, raws2, exposed, hlen, hp, hv, hr⟩ :=
      construct_ok_parts _ _ _ h
    have hrt : ("record_type", recordTypeFd) ∈ runtimeFields k := by
      cases k <;> decide
    have hu : keysUnique (runtimeFields k) = true := by cases k <;> decide
    have hmatch := parseFields_ok_matches _ _ _ _ _ hp _ hrt
    have hraws := parseFields_ok_raws _ _ _ _ _ hp
    simp only [List.nil_append] at hraws
    obtain ⟨hfst, huntouched, habsent, hnames⟩ :=
      validateOf_ok k raws raws2 exposed hv
    cases text with
    | nil => exact absurd hmatch (by decide)
    | cons c t =>
        have hm2 : matchesFieldType LockboxFieldType.Numeric
            (pyStrip [c]) = true := hmatch
        by_cases hsp : isPySpace c = true
        · rw [pyStrip_single, if_pos hsp] at hm2
          exact absurd hm2 (by decide)
        · rw [pyStrip_single, if_neg hsp] at hm2
          have hdig : isDigit09 c = true := by
            simpa [matchesFieldType] using hm2
          refine ⟨c, rfl, hdig, ?_⟩
          have hattr : (attrsOf k ++ rawAttrNames raws2).contains
              ("record_type") = false := by
            rw [rawAttrNames_eq_fst, hfst, hraws,
              show ((runtimeFields k).map (fun p =>
                  (p.1, pySlice (c :: t) p.2.startCol p.2.endCol))).map
                  Prod.fst = (runtimeFields k).map Prod.fst from by
                rw [List.map_map]
                exact List.map_congr_left (fun p _ => rfl)]
            cases k <;> decide
          subst hr
          unfold lookupField
          dsimp only
          rw [finishFields_mem _ _ _ _ _ _
            (lookupD_of_mem_unique _ _ _ hrt hu) hu hattr]
          have hnone : lookupD exposed ("record_type") = none :=
            lookupD_none_of_names _ _ _ hnames (by cases k <;> decide)
          rw [hnone]
          show some (finishVal raws2 recordTypeFd ("record_type")) = _
          have hval : lookupD raws2 ("record_type") = some [c] := by
            rw [huntouched ("record_type") (by cases k <;> decide), hraws]
            have := lookupD_map_keyed
              (fun p => pySlice (c :: t) p.2.startCol p.2.endCol)
              (runtimeFields k) ("record_type") recordTypeFd hrt hu
            exact this
          unfold finishVal
          rw [hval]
          rfl
  · intro k
    cases k
    · exact ⟨.fieldTypeMismatch ("priority_code") .Numeric [],
        by decide, by decide⟩
    · exact ⟨.fieldTypeMismatch ("record_type") .Numeric [],
        by decide, by decide⟩
    · exact ⟨.fieldTypeMismatch ("record_type") .Numeric [],
        by decide, by decide⟩
    · exact ⟨.fieldTypeMismatch ("record_type") .Numeric [],
        by decide, by decide⟩
    · exact ⟨.fieldTypeMismatch ("record_type") .Numeric [],
        by decide, by decide⟩
    · exact ⟨.fieldTypeMismatch ("check_dollar_total") .Numeric [],
        by decide, by decide⟩
    · exact ⟨.fieldTypeMismatch ("batch_number") .Numeric [],
        by decide, by decide⟩
    · exact ⟨.fieldTypeMismatch ("total_num_records") .Numeric [],
        by decide, by decide⟩

/-- Witness for C10 at the concrete DetailHeader line `5001`. -/
theorem C10_witness :
    lookupField
      ⟨sL ("5001"),
       [(("batch_number"), FieldValue.intv 1),
        (("item_number"), FieldValue.strv []),
        (("lockbox_number"), FieldValue.strv []),
        (("deposit_date"), FieldValue.strv []),
        (("destination"), FieldValue.strv []),
        (("filler"), FieldValue.strv []),
        (("record_type"), FieldValue.strv (['5']))]⟩ ("record_type") =
      some (FieldValue.strv (['5'])) := by
  obtain ⟨c, hc, hd, hl⟩ := C10_record_type.2.1 RecordKind.detailHeader
    (sL ("5001"))
    ⟨sL ("5001"),
     [(("batch_number"), FieldValue.intv 1),
      (("item_number"), FieldValue.strv []),
      (("lockbox_number"), FieldValue.strv []),
      (("deposit_date"), FieldValue.strv []),
      (("destination"), FieldValue.strv []),
      (("filler"), FieldValue.strv []),
      (("record_type"), FieldValue.strv (['5']))]⟩ (by decide)
  rw [show (sL ("5001")).head? = some '5' from rfl] at hc
  injection hc with h1
  subst h1
  exact hl

/-- C8: in every successfully constructed record, every `Blank`-typed
field is exposed as the absent value (`None`), never as an empty
string, and every non-`Blank` field is exposed as a non-absent value. -/
theorem C8_blank_absent :
    ∀ (k : RecordKind) (text : List Char) (r : PyRecord),
      construct k text = .ok r →
      ∀ p ∈ runtimeFields k,
        (p.2.ftype = .Blank → lookupField r p.1 = some FieldValue.absent) ∧
        (p.2.ftype ≠ .Blank →
          ∃ v, lookupField r p.1 = some v ∧ v ≠ FieldValue.absent) := by
  intro k text r h p hp
  obtain ⟨raws, raws2, exposed, hlen, hpf, hv, hr⟩ :=
    construct_ok_parts _ _ _ h
  obtain ⟨hfst, huntouched, habsent, hnames⟩ := validateOf_ok _ _ _ _ hv
  have hu : keysUnique (runtimeFields k) = true := by cases k <;> decide
  have hraws := parseFields_ok_raws _ _ _ _ _ hpf
  simp only [List.nil_append] at hraws
  have hlook : lookupD (runtimeFields k) p.1 = some p.2 :=
    lookupD_of_mem_unique _ _ _ (by simpa using hp) hu
  have hsep : ∀ q ∈ runtimeFields k,
      (attrsOf k ++ ((runtimeFields k).map Prod.fst).map
        (fun n => ("_") ++ n ++ ("_raw"))).contains q.1 = false := by
    cases k <;> decide
  have hattr : (attrsOf k ++ rawAttrNames raws2).contains p.1 = false := by
    rw [rawAttrNames_eq_fst, hfst, hraws,
      show ((runtimeFields k).map (fun q =>
          (q.1, pySlice text q.2.startCol q.2.endCol))).map Prod.fst =
          (runtimeFields k).map Prod.fst from by
        rw [List.map_map]
        exact List.map_congr_left (fun q _ => rfl)]
    exact hsep p hp
  subst hr
  constructor
  · intro hbl
    have hblank0 : ∀ q ∈ runtimeFields k,
        q.2.ftype = LockboxFieldType.Blank → q.1 ∉ exposedNamesOf k := by
      cases k <;> decide
    have hnone : lookupD exposed p.1 = none :=
      lookupD_none_of_names _ _ _ hnames (hblank0 p hp hbl)
    unfold lookupField
    dsimp only
    rw [finishFields_mem _ _ _ _ _ _ hlook hu hattr, hnone]
    simp [finishVal, hbl]
  · intro hbl
    unfold lookupField
    dsimp only
    rw [finishFields_mem _ _ _ _ _ _ hlook hu hattr]
    cases hexp : lookupD exposed p.1 with
    | some v =>
        exact ⟨v, rfl, habsent (p.1, v) (lookupD_mem _ _ _ hexp)⟩
    | none =>
        have hsome : (lookupD raws2 p.1).isSome = true := by
          rw [isSome_lookupD_of_fst raws2 raws hfst p.1, hraws]
          rw [lookupD_map_keyed
            (fun q => pySlice text q.2.startCol q.2.endCol)
            (runtimeFields k) p.1 p.2 (by simpa using hp) hu]
          rfl
        obtain ⟨rv, hrv⟩ := Option.isSome_iff_exists.mp hsome
        refine ⟨FieldValue.strv rv, ?_, by simp⟩
        unfold finishVal
        cases hft : p.2.ftype
        case Blank => exact absurd hft hbl
        all_goals rw [hrv]

/-- Witness for C8 at the concrete ServiceRecord line `2A`: the Blank
`filler` field is exposed as absent. -/
theorem C8_witness :
    lookupField
      ⟨sL ("2A"),
       [(("destination"), FieldValue.strv (['A'])),
        (("bank_origin"), FieldValue.strv []),
        (("reference_code"), FieldValue.strv []),
        (("service_code"), FieldValue.strv []),
        (("record_length"), FieldValue.strv []),
        (("characters_per_block"), FieldValue.strv []),
        (("partial_compression"), FieldValue.strv []),
        (("filler"), FieldValue.absent),
        (("record_type"), FieldValue.strv (['2']))]⟩ ("filler") =
      some FieldValue.absent :=
  (C8_blank_absent RecordKind.serviceRecord (sL ("2A"))
    ⟨sL ("2A"),
     [(("destination"), FieldValue.strv (['A'])),
      (("bank_origin"), FieldValue.strv []),
      (("reference_code"), FieldValue.strv []),
      (("service_code"), FieldValue.strv []),
      (("record_length"), FieldValue.strv []),
      (("characters_per_block"), FieldValue.strv []),
      (("partial_compression"), FieldValue.strv []),
      (("filler"), FieldValue.absent),
      (("record_type"), FieldValue.strv (['2']))]⟩ (by decide)
    (("filler"), ⟨42, 81, .Blank⟩) (by decide)).1 rfl

/-- C3 counterexample: for the DetailRecord line `6001ABC` (malformed
`item_number` raw value `ABC`), construction succeeds but `item_number`
is exposed as the *string* `'0'` — not as a numeric value — because the
`self.item_number = int(...)` conversion is commented out in the
source. -/
theorem C3_counterexample :
    Except.map (fun r => lookupField r ("item_number"))
      (construct RecordKind.detailRecord (sL ("6001ABC"))) =
      .ok (some (FieldValue.strv (['0']))) ∧
    FieldValue.strv (['0']) ≠ FieldValue.intv 0 :=
  ⟨by decide, by decide⟩

/-- The lenient numeric conversion of `LockboxDetailRecord.validate`:
a raw value that is not purely numeric becomes `0`. -/
def lenientInt (s : List Char) : Int :=
  if pyIsNumeric s then Int.ofNat (digitsVal s) else 0

/-- The lenient raw-string substitution: a raw value that is not purely
numeric becomes the string `'0'`. -/
def lenientRaw (s : List Char) : List Char :=
  if pyIsNumeric s then s else ['0']

theorem pyInt_zero_char : pyInt (['0']) = some 0 := by decide

theorem pyIsNumeric_zero_char : pyIsNumeric (['0']) = true := by decide
theorem pyIsNumeric_empty (s : List Char) (h : s.isEmpty = true) :
    pyIsNumeric s = false := by
  unfold pyIsNumeric
  rw [h]
  rfl

theorem digitsVal_zero_char : digitsVal (['0']) = 0 := by decide

/-- C3 (amended): for every DetailRecord input that passes
character-class validation, construction never fails in the validator;
`batch_number`, `check_amount` and `check_number` are exposed as numeric
values with the lenient zero fallback (a non-numeric — or, for
`check_number`, empty — raw value becomes 0), with `check_amount` equal
to the integer value of its raw string divided by 100 (encoded as
`amountv` cents); but `item_number`, whose `int(...)` conversion is
commented out in the source, only receives the `'0'` raw-string
substitution and is exposed as a raw *string*, not a number. -/
theorem C3_detail_record_leniency :
    ∀ (text : List Char) (raws : List (String × List Char)),
      text.length ≤ 160 →
      parseFields text (runtimeFields RecordKind.detailRecord)
        (attrsOf RecordKind.detailRecord) [] = .ok raws →
      isOkE (construct RecordKind.detailRecord text) = true ∧
      Except.map (fun r => lookupField r ("batch_number"))
        (construct RecordKind.detailRecord text) =
        .ok (some (.intv (lenientInt (pySlice text 1 4)))) ∧
      Except.map (fun r => lookupField r ("item_number"))
        (construct RecordKind.detailRecord text) =
        .ok (some (.strv (lenientRaw (pySlice text 4 7)))) ∧
      Except.map (fun r => lookupField r ("check_amount"))
        (construct RecordKind.detailRecord text) =
        .ok (some (.amountv (lenientInt (pySlice text 7 17)))) ∧
      Except.map (fun r => lookupField r ("check_number"))
        (construct RecordKind.detailRecord text) =
        .ok (some (.intv (lenientInt (pySlice text 40 50)))) := by
  intro text raws hlen hp
  have hraws := parseFields_ok_raws _ _ _ _ _ hp
  simp only [List.nil_append] at hraws
  subst hraws
  rw [construct_eq,
    if_neg (show ¬MAX_RECORD_LENGTH < text.length from Nat.not_lt.mpr hlen),
    hp]
  by_cases hb : pyIsNumeric (pySlice text 1 4) = true <;>
    by_cases hi : pyIsNumeric (pySlice text 4 7) = true <;>
      by_cases ha : pyIsNumeric (pySlice text 7 17) = true <;>
        (by_cases he : (pySlice text 40 50).isEmpty = true
         · simp [validateOf, detailRecordValidate, dRV1, dRV2, dRV3, dRV4,
             dRV5, dRV6, dRV7, numFallback, intStep, getRaw, pyIntE,
             runtimeFields, dictInsert, dictOfLiteral, fieldsLiteralOf,
             detailRecordFields, recordTypeFd, hasKey, setKey, lookupD,
             finishFields, finishVal, lookupField, rawAttrNames, attrsOf,
             baseAttrs, hasValidate, lenientInt, lenientRaw, isOkE,
             Except.map, pyInt_zero_char, pyIsNumeric_zero_char,
             digitsVal_zero_char, pyInt_digits, hb, hi, ha, he,
             pyIsNumeric_empty (pySlice text 40 50) he]
         · by_cases hc : pyIsNumeric (pySlice text 40 50) = true <;>
             simp [validateOf, detailRecordValidate, dRV1, dRV2, dRV3, dRV4,
               dRV5, dRV6, dRV7, numFallback, intStep, getRaw, pyIntE,
               runtimeFields, dictInsert, dictOfLiteral, fieldsLiteralOf,
               detailRecordFields, recordTypeFd, hasKey, setKey, lookupD,
               finishFields, finishVal, lookupField, rawAttrNames, attrsOf,
               baseAttrs, hasValidate, lenientInt, lenientRaw, isOkE,
               Except.map, pyInt_zero_char, pyIsNumeric_zero_char,
               digitsVal_zero_char, pyInt_digits, hb, hi, ha, he, hc])

/-- Witness for C3 (amended) at the concrete DetailRecord line
`6001ABC`: construction succeeds and the malformed (empty)
`check_amount` is exposed as amount 0. -/
theorem C3_witness :
    isOkE (construct RecordKind.detailRecord (sL ("6001ABC"))) = true ∧
    Except.map (fun r => lookupField r ("check_amount"))
      (construct RecordKind.detailRecord (sL ("6001ABC"))) =
      .ok (some (FieldValue.amountv 0)) := by
  have h := C3_detail_record_leniency (sL ("6001ABC"))
    [(("batch_number"), sL ("001")), (("item_number"), sL ("ABC")),
     (("check_amount"), []), (("transit_routing_number"), []),
     (("dd_account_number"), []), (("check_number"), []),
     (("filler"), []), (("record_type"), ['6'])]
    (by decide) (by decide)
  refine ⟨h.1, ?_⟩
  rw [h.2.2.2.1]
  decide
